import Mathlib

/-!
Verification of the spatial coordinate resolution engine of the
`llm-adventure` repository (`api/services/coordinate_mapper.py` and
`api/tools/spatial_calculator.py`).

The Python service is embedded shallowly:

* a `Location` keeps the three fields the engine reads or writes
  (`name`, `relative_position`, `coordinates`); coordinates are
  `(latitude, longitude)` pairs of reals in degrees, `none` when the
  PostGIS column is NULL;
* object identity of the SQLAlchemy rows is modelled by list position:
  each phase is a function on the list of locations of one world,
  updating entries in place by index;
* the external collaborators are parameters: `oracle i` is the spatial
  planner agent's parsed answer for the i-th location (`none` models a
  raised/unparsable response), `dist`/`proj` are the PostGIS
  `ST_Distance` (meters) and `ST_Project` (meters, radians) calls, and
  `bear i j` is the `random.uniform(0, 360)` draw used when the pair
  `(i, j)` conflicts;
* the PostGIS geodesic functions themselves are not part of the
  repository; where a claim depends on their geometry they are modelled
  from the spec as exact great-circle geometry on a fixed-radius sphere
  (definitions marked `Modelled from the spec`).
-/

namespace LlmAdventure

/-- A location row as the coordinate mapper sees it: name, optional
relative-position text, optional `(latitude, longitude)` coordinate in
degrees. -/
structure Location where
  name : String
  relative_position : Option String
  coordinates : Option (ℝ × ℝ)

instance : Inhabited Location := ⟨⟨"", none, none⟩⟩

/-- The summary returned by `assign_coordinates_to_world`. -/
structure CoordinateAssignmentSummary where
  total_locations : ℕ
  locations_with_coordinates : ℕ
  anchor_locations : ℕ
  relative_locations : ℕ
deriving DecidableEq

/-- Result of one orchestration run: the final location rows, whether
`db.commit()` was reached, and the returned summary. -/
structure RunResult where
  locs : List Location
  committed : Bool
  summary : CoordinateAssignmentSummary

/-- Apply `f i loc` to every list entry, where `i` is the entry's
position offset by the accumulator `k`.  Used to model the in-place
mutation of the location rows. -/
def updateEach (f : ℕ → Location → Location) : ℕ → List Location → List Location
  | _, [] => []
  | k, l :: ls => f k l :: updateEach f (k + 1) ls

/-- The anchor test from `_identify_anchor_locations`: a location is an
anchor when `relative_position` is NULL or whitespace-only
(`not loc.relative_position or not loc.relative_position.strip()`; a
string strips to empty exactly when all of its characters are
whitespace). -/
def isAnchor (loc : Location) : Bool :=
  match loc.relative_position with
  | none => true
  | some s => s.data.all Char.isWhitespace

/-- `_identify_anchor_locations`, by list index: the indices of the
anchor locations; if there is none, the first location is forced to be
the (only) anchor. -/
def identify_anchor_locations (locs : List Location) : List ℕ :=
  if ((List.range locs.length).filter fun i => isAnchor locs[i]!).isEmpty then [0]
  else (List.range locs.length).filter fun i => isAnchor locs[i]!

/-- `atan2 y x` as Python's `math.atan2`: the argument of the complex
number `x + y*I`, in `(-π, π]`. -/
noncomputable def atan2 (y x : ℝ) : ℝ := Complex.arg ⟨x, y⟩

/-- Clamping of one axis to `[-40, 40]`, as in
`max(-40, min(40, v))`. -/
noncomputable def clamp40 (v : ℝ) : ℝ := max (-40) (min 40 v)

/-- `_fibonacci_sphere_point`: golden-angle spiral point for index
`index` out of `total_points`, re-scaled to the ±40° band and clamped,
returned as `(latitude, longitude)`. -/
noncomputable def fibonacci_sphere_point (index total_points : ℕ) : ℝ × ℝ :=
  let phi : ℝ := Real.pi * (3 - Real.sqrt 5)
  let y : ℝ := 1 - ((index : ℝ) / ((total_points : ℝ) - 1)) * 2
  let radius : ℝ := Real.sqrt (1 - y * y)
  let theta : ℝ := phi * (index : ℝ)
  let x : ℝ := Real.cos theta * radius
  let z : ℝ := Real.sin theta * radius
  let longitude : ℝ := (atan2 z x * 180 / Real.pi) * (40 / 180)
  let latitude : ℝ := (Real.arcsin y * 180 / Real.pi) * (40 / 90)
  (clamp40 latitude, clamp40 longitude)

/-- The coordinate written to the anchor in position `j` of the anchor
list (of length `n`): the first anchor goes to the origin, later ones
to their Fibonacci-spiral slot. -/
noncomputable def anchor_slot_point (j n : ℕ) : ℝ × ℝ :=
  if j = 0 then ((0 : ℝ), (0 : ℝ)) else fibonacci_sphere_point j n

/-- `_distribute_anchor_locations`: every location whose index is in
`aidx` receives the slot point of its position within `aidx`;
non-anchor rows are untouched. -/
noncomputable def distribute_anchor_locations (aidx : List ℕ) (locs : List Location) :
    List Location :=
  updateEach (fun i loc =>
    if i ∈ aidx then
      { loc with coordinates := some (anchor_slot_point (aidx.indexOf i) aidx.length) }
    else loc) 0 locs

/-- `_calculate_coordinates_from_parse`, as a function of the agent's
parsed proposal: `none` models a raised exception (unparsable response
or JSON error); an out-of-range proposal raises `ValueError`
(modelled as `none`); an in-range proposal is returned unchanged. -/
noncomputable def calculate_coordinates_from_parse (proposal : Option (ℝ × ℝ)) :
    Option (ℝ × ℝ) :=
  match proposal with
  | none => none
  | some (lat, lon) =>
    if (-40 ≤ lat ∧ lat ≤ 40) ∧ (-180 ≤ lon ∧ lon ≤ 180) then some (lat, lon) else none

/-- `_resolve_relative_positions`: every location outside the anchor
index set is re-resolved; a successful calculation overwrites its
coordinate, a failure (caught exception) leaves the row unchanged. -/
noncomputable def resolve_relative_positions (oracle : ℕ → Option (ℝ × ℝ))
    (aidx : List ℕ) (locs : List Location) : List Location :=
  updateEach (fun i loc =>
    if i ∈ aidx then loc
    else
      match calculate_coordinates_from_parse (oracle i) with
      | some c => { loc with coordinates := some c }
      | none => loc) 0 locs

/-- `_adjust_location_with_offset`: project `offset_km` from the current
coordinate along the random bearing (degrees, converted by
`math.radians`), then clamp both axes to `[-40, 40]`. -/
noncomputable def adjust_location_with_offset (proj : ℝ × ℝ → ℝ → ℝ → ℝ × ℝ)
    (bearing offset_km : ℝ) (c : ℝ × ℝ) : ℝ × ℝ :=
  let azimuth_radians : ℝ := bearing * Real.pi / 180
  let distance_meters : ℝ := offset_km * 1000
  let p := proj c distance_meters azimuth_radians
  (clamp40 p.1, clamp40 p.2)

/-- The ordered pairs `(i, j)` with `i < j < n` visited by the two
nested loops of `_resolve_conflicts`. -/
def pairList (n : ℕ) : List (ℕ × ℕ) :=
  (List.range n).flatMap fun i => ((List.range n).filter fun j => i < j).map fun j => (i, j)

/-- One inner-loop iteration of `_resolve_conflicts` on the pair `p`:
if both rows currently hold coordinates and their distance is below the
threshold, the second row of the pair is adjusted. -/
noncomputable def conflictStep (dist : ℝ × ℝ → ℝ × ℝ → ℝ) (proj : ℝ × ℝ → ℝ → ℝ → ℝ × ℝ)
    (bear : ℕ → ℕ → ℝ) (min_distance_km : ℝ) (s : List Location) (p : ℕ × ℕ) :
    List Location :=
  match s[p.1]? with
  | none => s
  | some l1 =>
    match l1.coordinates with
    | none => s
    | some c1 =>
      match s[p.2]? with
      | none => s
      | some l2 =>
        match l2.coordinates with
        | none => s
        | some c2 =>
          if dist c1 c2 / 1000 < min_distance_km then
            let adjusted := adjust_location_with_offset proj (bear p.1 p.2) 10 c2
            s.set p.2 { l2 with coordinates := some adjusted }
          else s

/-- `_resolve_conflicts`: a single pairwise scan, with adjustments
visible to the later iterations of the same scan. -/
noncomputable def resolve_conflicts (dist : ℝ × ℝ → ℝ × ℝ → ℝ)
    (proj : ℝ × ℝ → ℝ → ℝ → ℝ × ℝ) (bear : ℕ → ℕ → ℝ) (min_distance_km : ℝ)
    (locs : List Location) : List Location :=
  (pairList locs.length).foldl (conflictStep dist proj bear min_distance_km) locs

/-- `assign_coordinates_to_world`: the four-phase orchestration run for
one world.  An empty world returns the zero summary before any phase
and before `db.commit()`. -/
noncomputable def assign_coordinates_to_world (oracle : ℕ → Option (ℝ × ℝ))
    (dist : ℝ × ℝ → ℝ × ℝ → ℝ) (proj : ℝ × ℝ → ℝ → ℝ → ℝ × ℝ) (bear : ℕ → ℕ → ℝ)
    (locs : List Location) : RunResult :=
  if locs.isEmpty then
    { locs := locs, committed := false,
      summary := ⟨0, 0, 0, 0⟩ }
  else
    let aidx := identify_anchor_locations locs
    let s1 := distribute_anchor_locations aidx locs
    let s2 := resolve_relative_positions oracle aidx s1
    let s3 := resolve_conflicts dist proj bear 5 s2
    { locs := s3, committed := true,
      summary := ⟨locs.length, s3.countP (fun l => l.coordinates.isSome),
                  aidx.length, locs.length - aidx.length⟩ }

/-! ### The geodesic toolkit, modelled from the spec

The repository delegates all geodesic computation to PostGIS
(`ST_Distance`, `ST_Project`, `ST_Azimuth`); those implementations are
not part of the source tree.  Following the spec (§4.1: great-circle
distance, initial bearing and destination point on the world's
fixed-radius sphere, with the reference system using Earth's mean
radius), they are modelled as exact spherical geodesy. -/

/-- Modelled from the spec: the fixed sphere radius, Earth's mean
radius in meters (the PostGIS implementation is not part of src). -/
noncomputable def earthRadiusM : ℝ := 6371000

/-- Degrees to radians, as Python's `math.radians`. -/
noncomputable def toRad (d : ℝ) : ℝ := d * Real.pi / 180

/-- Radians to degrees. -/
noncomputable def toDeg (r : ℝ) : ℝ := r * 180 / Real.pi

/-- Normalization of an angle from `(-π, π]` to `[0, 2π)`. -/
noncomputable def norm2pi (t : ℝ) : ℝ := if t < 0 then t + 2 * Real.pi else t

/-- Modelled from the spec: central angle between two
`(latitude, longitude)` points given in radians (spherical law of
cosines). -/
noncomputable def centralAngle (a b : ℝ × ℝ) : ℝ :=
  Real.arccos (Real.sin a.1 * Real.sin b.1 + Real.cos a.1 * Real.cos b.1 * Real.cos (b.2 - a.2))

/-- Modelled from the spec: destination point (radians) at central
angle `delta` along initial bearing `theta` from `(phi, lam)`. -/
noncomputable def projectRad (phi lam theta delta : ℝ) : ℝ × ℝ :=
  (Real.arcsin (Real.sin phi * Real.cos delta + Real.cos phi * Real.sin delta * Real.cos theta),
   lam + atan2 (Real.sin theta * Real.sin delta * Real.cos phi)
     (Real.cos delta - Real.sin phi *
       (Real.sin phi * Real.cos delta + Real.cos phi * Real.sin delta * Real.cos theta)))

/-- Modelled from the spec: initial great-circle bearing from `a` to
`b` (radians, both points in radians), normalized to `[0, 2π)`. -/
noncomputable def bearingRad (a b : ℝ × ℝ) : ℝ :=
  norm2pi (atan2 (Real.sin (b.2 - a.2) * Real.cos b.1)
    (Real.cos a.1 * Real.sin b.1 - Real.sin a.1 * Real.cos b.1 * Real.cos (b.2 - a.2)))

/-- Modelled from the spec: `ST_Distance` on geography values —
great-circle distance in meters between two `(latitude, longitude)`
degree pairs, on the fixed-radius sphere. -/
noncomputable def ST_Distance (a b : ℝ × ℝ) : ℝ :=
  earthRadiusM * centralAngle (toRad a.1, toRad a.2) (toRad b.1, toRad b.2)

/-- Modelled from the spec: `ST_Project` — destination point in degrees
from a degree pair, a distance in meters and an azimuth in radians. -/
noncomputable def ST_Project (c : ℝ × ℝ) (distance_m azimuth : ℝ) : ℝ × ℝ :=
  (toDeg (projectRad (toRad c.1) (toRad c.2) azimuth (distance_m / earthRadiusM)).1,
   toDeg (projectRad (toRad c.1) (toRad c.2) azimuth (distance_m / earthRadiusM)).2)

/-- Modelled from the spec: the toolkit's `bearing(a, b)` in degrees,
in `[0, 360)`, for degree pairs. -/
noncomputable def bearingDegrees (a b : ℝ × ℝ) : ℝ :=
  toDeg (bearingRad (toRad a.1, toRad a.2) (toRad b.1, toRad b.2))

/-- The unit vector of a `(latitude, longitude)` point given in
radians, used to relate `centralAngle` to the ambient inner product. -/
noncomputable def sphereVec (p : ℝ × ℝ) : EuclideanSpace ℝ (Fin 3) :=
  ![Real.cos p.1 * Real.cos p.2, Real.cos p.1 * Real.sin p.2, Real.sin p.1]

/-- World bounds for a stored `(latitude, longitude)` coordinate:
latitude in `[-40, 40]`, longitude in `[-180, 180]`. -/
def inWorldBounds (c : ℝ × ℝ) : Prop :=
  (-40 ≤ c.1 ∧ c.1 ≤ 40) ∧ (-180 ≤ c.2 ∧ c.2 ≤ 180)

/-- Every location of the list that holds a coordinate holds one within
world bounds. -/
def allInBounds (s : List Location) : Prop :=
  ∀ l ∈ s, ∀ c, l.coordinates = some c → inWorldBounds c

/-! ### Helper lemmas -/

theorem length_updateEach (f : ℕ → Location → Location) (k : ℕ) (ls : List Location) :
    (updateEach f k ls).length = ls.length := by
  induction ls generalizing k with
  | nil => rfl
  | cons l ls ih => simp [updateEach, ih]

theorem getElem?_updateEach (f : ℕ → Location → Location) (k : ℕ) (ls : List Location)
    (i : ℕ) : (updateEach f k ls)[i]? = (ls[i]?).map (f (k + i)) := by
  induction ls generalizing k i with
  | nil => simp [updateEach]
  | cons l ls ih =>
    cases i with
    | zero => simp [updateEach]
    | succ j =>
      simp only [updateEach, List.getElem?_cons_succ, ih (k + 1) j]
      have h : k + 1 + j = k + (j + 1) := by omega
      rw [h]

theorem abs_complex_mk (x y : ℝ) : Complex.abs ⟨x, y⟩ = Real.sqrt (x ^ 2 + y ^ 2) := by
  rw [Complex.abs_apply, Complex.normSq_mk]
  ring_nf

theorem sin_atan2 (y x : ℝ) : Real.sin (atan2 y x) = y / Real.sqrt (x ^ 2 + y ^ 2) := by
  rw [atan2, Complex.sin_arg, abs_complex_mk]

theorem cos_atan2 (y x : ℝ) (h : Real.sqrt (x ^ 2 + y ^ 2) ≠ 0) :
    Real.cos (atan2 y x) = x / Real.sqrt (x ^ 2 + y ^ 2) := by
  have hz : (⟨x, y⟩ : ℂ) ≠ 0 := by
    intro h0
    apply h
    rw [show x = (0 : ℝ) from congrArg Complex.re h0, show y = (0 : ℝ) from congrArg Complex.im h0]
    simp
  rw [atan2, Complex.cos_arg hz, abs_complex_mk]

theorem key_poly (s c sd cd st ct : ℝ) (h1 : s ^ 2 + c ^ 2 = 1) (h2 : sd ^ 2 + cd ^ 2 = 1)
    (h3 : st ^ 2 + ct ^ 2 = 1) :
    (cd - s * (s * cd + c * sd * ct)) ^ 2 + (st * sd * c) ^ 2 =
      c ^ 2 * (1 - (s * cd + c * sd * ct) ^ 2) := by
  linear_combination ((s * cd + c * sd * ct) ^ 2 - cd ^ 2) * h1 + c ^ 2 * h2 +
    c ^ 2 * sd ^ 2 * h3

theorem atan2_norm_cos_sin (r θ : ℝ) (hr : 0 < r) (h0 : 0 ≤ θ) (h1 : θ < 2 * Real.pi) :
    norm2pi (atan2 (r * Real.sin θ) (r * Real.cos θ)) = θ := by
  have hπ := Real.pi_pos
  have hmk : (⟨r * Real.cos θ, r * Real.sin θ⟩ : ℂ) =
      (r : ℂ) * (Complex.cos θ + Complex.sin θ * Complex.I) := by
    rw [Complex.mk_eq_add_mul_I, ← Complex.ofReal_cos, ← Complex.ofReal_sin]
    push_cast
    ring
  by_cases hθπ : θ ≤ Real.pi
  · have harg : atan2 (r * Real.sin θ) (r * Real.cos θ) = θ := by
      rw [atan2, hmk, Complex.arg_real_mul _ hr]
      exact Complex.arg_cos_add_sin_mul_I ⟨by linarith, hθπ⟩
    rw [harg, norm2pi, if_neg (by linarith)]
  · push_neg at hθπ
    have harg : atan2 (r * Real.sin θ) (r * Real.cos θ) = θ - 2 * Real.pi := by
      rw [atan2, hmk]
      rw [show Complex.cos (θ : ℂ) = Complex.cos ((θ : ℝ) - 2 * Real.pi : ℝ) by
        rw [← Complex.ofReal_cos, ← Complex.ofReal_cos, Real.cos_sub_two_pi]]
      rw [show Complex.sin (θ : ℂ) = Complex.sin ((θ : ℝ) - 2 * Real.pi : ℝ) by
        rw [← Complex.ofReal_sin, ← Complex.ofReal_sin, Real.sin_sub_two_pi]]
      rw [Complex.arg_real_mul _ hr]
      exact Complex.arg_cos_add_sin_mul_I ⟨by linarith, by linarith⟩
    rw [harg, norm2pi, if_pos (by linarith)]
    ring

set_option maxHeartbeats 1000000 in
theorem projectRad_roundtrip (phi lam theta delta : ℝ)
    (hθ0 : 0 ≤ theta) (hθ1 : theta < 2 * Real.pi)
    (hδ : 0 < delta) (hdom : |phi| + delta < Real.pi / 2) :
    centralAngle (phi, lam) (projectRad phi lam theta delta) = delta ∧
    bearingRad (phi, lam) (projectRad phi lam theta delta) = theta := by
  have hπ := Real.pi_pos
  have habs := abs_nonneg phi
  have hφlt : |phi| < Real.pi / 2 := by linarith
  have hφ1 : -(Real.pi / 2) < phi := by linarith [(abs_lt.mp hφlt).1]
  have hφ2 : phi < Real.pi / 2 := (abs_lt.mp hφlt).2
  have hc : 0 < Real.cos phi := Real.cos_pos_of_mem_Ioo ⟨hφ1, hφ2⟩
  have hδπ : delta < Real.pi / 2 := by linarith
  have hsd : 0 < Real.sin delta := Real.sin_pos_of_pos_of_lt_pi hδ (by linarith)
  have hproj : projectRad phi lam theta delta =
      (Real.arcsin (Real.sin phi * Real.cos delta + Real.cos phi * Real.sin delta * Real.cos theta),
       lam + atan2 (Real.sin theta * Real.sin delta * Real.cos phi)
         (Real.cos delta - Real.sin phi *
           (Real.sin phi * Real.cos delta + Real.cos phi * Real.sin delta * Real.cos theta))) := rfl
  rw [hproj]
  set S : ℝ := Real.sin phi * Real.cos delta + Real.cos phi * Real.sin delta * Real.cos theta
    with hS
  set y : ℝ := Real.sin theta * Real.sin delta * Real.cos phi with hy
  set x : ℝ := Real.cos delta - Real.sin phi * S with hx
  have hplus : phi + delta < Real.pi / 2 := by linarith [le_abs_self phi]
  have hplus' : -(Real.pi / 2) < phi + delta := by linarith
  have hminus : -(Real.pi / 2) < phi - delta := by linarith [neg_abs_le phi]
  have hminus' : phi - delta < Real.pi / 2 := by linarith
  have hSle : S ≤ Real.sin (phi + delta) := by
    rw [Real.sin_add, hS]
    have hcs : 0 ≤ Real.cos phi * Real.sin delta := by positivity
    nlinarith [Real.cos_le_one theta]
  have hSge : Real.sin (phi - delta) ≤ S := by
    rw [Real.sin_sub, hS]
    have hcs : 0 ≤ Real.cos phi * Real.sin delta := by positivity
    nlinarith [Real.neg_one_le_cos theta]
  have hS1 : S < 1 := by
    have h := Real.strictMonoOn_sin ⟨by linarith, by linarith⟩
      ⟨by linarith, le_refl (Real.pi / 2)⟩ hplus
    rw [Real.sin_pi_div_two] at h
    linarith
  have hS2 : -1 < S := by
    have h := Real.strictMonoOn_sin ⟨le_refl (-(Real.pi / 2)), by linarith⟩
      ⟨by linarith, by linarith⟩ hminus
    rw [Real.sin_neg, Real.sin_pi_div_two] at h
    linarith
  have hsin2 : Real.sin (Real.arcsin S) = S := Real.sin_arcsin (by linarith) (by linarith)
  have hcos2 : Real.cos (Real.arcsin S) = Real.sqrt (1 - S ^ 2) := Real.cos_arcsin S
  have hS_sq : 0 < 1 - S ^ 2 := by nlinarith
  have hroot : 0 < Real.sqrt (1 - S ^ 2) := Real.sqrt_pos.mpr hS_sq
  have key : x ^ 2 + y ^ 2 = Real.cos phi ^ 2 * (1 - S ^ 2) := by
    rw [hx, hy, hS]
    exact key_poly (Real.sin phi) (Real.cos phi) (Real.sin delta) (Real.cos delta)
      (Real.sin theta) (Real.cos theta) (Real.sin_sq_add_cos_sq phi)
      (Real.sin_sq_add_cos_sq delta) (Real.sin_sq_add_cos_sq theta)
  have hsqrt : Real.sqrt (x ^ 2 + y ^ 2) = Real.cos phi * Real.sqrt (1 - S ^ 2) := by
    rw [key, Real.sqrt_mul (sq_nonneg (Real.cos phi)), Real.sqrt_sq hc.le]
  have hsqrt_pos : 0 < Real.sqrt (x ^ 2 + y ^ 2) := by
    rw [hsqrt]; positivity
  have hcosA : Real.cos (atan2 y x) = x / (Real.cos phi * Real.sqrt (1 - S ^ 2)) := by
    rw [cos_atan2 y x (ne_of_gt hsqrt_pos), hsqrt]
  have hsinA : Real.sin (atan2 y x) = y / (Real.cos phi * Real.sqrt (1 - S ^ 2)) := by
    rw [sin_atan2 y x, hsqrt]
  constructor
  · have hca : centralAngle (phi, lam)
        (Real.arcsin S, lam + atan2 y x) =
        Real.arccos (Real.sin phi * Real.sin (Real.arcsin S) +
          Real.cos phi * Real.cos (Real.arcsin S) * Real.cos (lam + atan2 y x - lam)) := rfl
    rw [hca, add_sub_cancel_left, hsin2, hcos2, hcosA]
    have hinner : Real.sin phi * S +
        Real.cos phi * Real.sqrt (1 - S ^ 2) * (x / (Real.cos phi * Real.sqrt (1 - S ^ 2))) =
        Real.cos delta := by
      rw [hx]
      field_simp
    rw [hinner]
    exact Real.arccos_cos hδ.le (by linarith)
  · have hbr : bearingRad (phi, lam) (Real.arcsin S, lam + atan2 y x) =
        norm2pi (atan2 (Real.sin (lam + atan2 y x - lam) * Real.cos (Real.arcsin S))
          (Real.cos phi * Real.sin (Real.arcsin S) -
            Real.sin phi * Real.cos (Real.arcsin S) * Real.cos (lam + atan2 y x - lam))) := rfl
    rw [hbr, add_sub_cancel_left, hsin2, hcos2, hsinA, hcosA]
    have hyb : y / (Real.cos phi * Real.sqrt (1 - S ^ 2)) * Real.sqrt (1 - S ^ 2) =
        Real.sin delta * Real.sin theta := by
      rw [hy]
      field_simp
      ring
    have hxb : Real.cos phi * S -
        Real.sin phi * Real.sqrt (1 - S ^ 2) *
          (x / (Real.cos phi * Real.sqrt (1 - S ^ 2))) =
        Real.sin delta * Real.cos theta := by
      have h1 := Real.sin_sq_add_cos_sq phi
      rw [hx, hS]
      field_simp
      linear_combination (Real.sqrt
          (1 - (Real.sin phi * Real.cos delta + Real.cos phi * Real.sin delta * Real.cos theta) ^ 2) *
        (Real.sin phi * Real.cos delta + Real.cos phi * Real.sin delta * Real.cos theta)) * h1
    rw [hyb, hxb]
    exact atan2_norm_cos_sin (Real.sin delta) theta hsd hθ0 hθ1

theorem toRad_toDeg (z : ℝ) : toRad (toDeg z) = z := by
  rw [toRad, toDeg]
  field_simp

theorem toDeg_toRad (z : ℝ) : toDeg (toRad z) = z := by
  rw [toRad, toDeg]
  field_simp

/-! ### Claim C6 -/

/-- C6: round-trip property of the geodesic toolkit.  For every point
`(lat, lon)` with `lat` in the valid domain (expressed as
`|toRad lat| + D / earthRadiusM < π / 2`, which keeps the projected
point away from the poles), every bearing `B ∈ [0, 360)` and every
positive distance `D` within world bounds,
`distance(P, project(P, B, D)) = D` exactly and
`bearing(P, project(P, B, D)) = B` exactly, on the same fixed sphere
radius (so in particular within any numeric tolerance). -/
theorem geodesic_toolkit_roundtrip (lat lon B D : ℝ)
    (hB0 : 0 ≤ B) (hB1 : B < 360) (hD : 0 < D)
    (hdom : |toRad lat| + D / earthRadiusM < Real.pi / 2) :
    ST_Distance (lat, lon) (ST_Project (lat, lon) D (toRad B)) = D ∧
    bearingDegrees (lat, lon) (ST_Project (lat, lon) D (toRad B)) = B := by
  have hR : (0 : ℝ) < earthRadiusM := by rw [earthRadiusM]; norm_num
  have hπ := Real.pi_pos
  have hθ0 : 0 ≤ toRad B := by rw [toRad]; positivity
  have hθ1 : toRad B < 2 * Real.pi := by rw [toRad]; nlinarith
  have hδ : 0 < D / earthRadiusM := by positivity
  obtain ⟨hdist, hbear⟩ := projectRad_roundtrip (toRad lat) (toRad lon) (toRad B)
    (D / earthRadiusM) hθ0 hθ1 hδ hdom
  set p : ℝ × ℝ := projectRad (toRad lat) (toRad lon) (toRad B) (D / earthRadiusM) with hp
  have hstp : ST_Project (lat, lon) D (toRad B) = (toDeg p.1, toDeg p.2) := rfl
  constructor
  · have h1 : ST_Distance (lat, lon) (toDeg p.1, toDeg p.2) =
        earthRadiusM * centralAngle (toRad lat, toRad lon)
          (toRad (toDeg p.1), toRad (toDeg p.2)) := rfl
    rw [hstp, h1, toRad_toDeg, toRad_toDeg, Prod.mk.eta, hdist]
    field_simp
  · have h2 : bearingDegrees (lat, lon) (toDeg p.1, toDeg p.2) =
        toDeg (bearingRad (toRad lat, toRad lon) (toRad (toDeg p.1), toRad (toDeg p.2))) := rfl
    rw [hstp, h2, toRad_toDeg, toRad_toDeg, Prod.mk.eta, hbear, toDeg_toRad]

/-- Witness for C6 at the origin, bearing 0°, distance 1000 km. -/
theorem geodesic_toolkit_roundtrip_witness :
    ST_Distance (0, 0) (ST_Project (0, 0) 1000000 (toRad 0)) = 1000000 ∧
    bearingDegrees (0, 0) (ST_Project (0, 0) 1000000 (toRad 0)) = 0 :=
  geodesic_toolkit_roundtrip 0 0 0 1000000 (le_refl 0) (by norm_num) (by norm_num)
    (by
      rw [toRad, earthRadiusM]
      have h3 := Real.pi_gt_three
      rw [show |(0 : ℝ) * Real.pi / 180| = 0 by simp]
      norm_num
      linarith)

/-! ### Lemmas about the phases of the orchestration run -/

theorem pairList_lt (n : ℕ) (p : ℕ × ℕ) (hp : p ∈ pairList n) : p.1 < p.2 ∧ p.2 < n := by
  rw [pairList] at hp
  simp only [List.mem_flatMap, List.mem_map, List.mem_filter, List.mem_range,
    decide_eq_true_eq] at hp
  obtain ⟨i, hi, j, ⟨hj, hij⟩, rfl⟩ := hp
  exact ⟨hij, hj⟩

theorem conflictStep_getElem?_of_ne (dist : ℝ × ℝ → ℝ × ℝ → ℝ)
    (proj : ℝ × ℝ → ℝ → ℝ → ℝ × ℝ) (bear : ℕ → ℕ → ℝ) (m : ℝ) (s : List Location)
    (p : ℕ × ℕ) (i : ℕ) (hne : p.2 ≠ i) :
    (conflictStep dist proj bear m s p)[i]? = s[i]? := by
  unfold conflictStep
  split
  · rfl
  · split
    · rfl
    · split
      · rfl
      · split
        · rfl
        · split
          · exact List.getElem?_set_ne hne
          · rfl

theorem conflictStep_length (dist : ℝ × ℝ → ℝ × ℝ → ℝ) (proj : ℝ × ℝ → ℝ → ℝ → ℝ × ℝ)
    (bear : ℕ → ℕ → ℝ) (m : ℝ) (s : List Location) (p : ℕ × ℕ) :
    (conflictStep dist proj bear m s p).length = s.length := by
  unfold conflictStep
  split
  · rfl
  · split
    · rfl
    · split
      · rfl
      · split
        · rfl
        · split
          · exact List.length_set ..
          · rfl

theorem foldl_conflictStep_getElem? (dist : ℝ × ℝ → ℝ × ℝ → ℝ)
    (proj : ℝ × ℝ → ℝ → ℝ → ℝ × ℝ) (bear : ℕ → ℕ → ℝ) (m : ℝ) (ps : List (ℕ × ℕ))
    (s : List Location) (i : ℕ) (hps : ∀ p ∈ ps, p.2 ≠ i) :
    (ps.foldl (conflictStep dist proj bear m) s)[i]? = s[i]? := by
  induction ps generalizing s with
  | nil => rfl
  | cons p ps ih =>
    rw [List.foldl_cons, ih _ fun q hq => hps q (List.mem_cons_of_mem p hq),
      conflictStep_getElem?_of_ne dist proj bear m s p i (hps p (List.mem_cons_self p ps))]

theorem resolve_conflicts_getElem?_zero (dist : ℝ × ℝ → ℝ × ℝ → ℝ)
    (proj : ℝ × ℝ → ℝ → ℝ → ℝ × ℝ) (bear : ℕ → ℕ → ℝ) (m : ℝ) (s : List Location) :
    (resolve_conflicts dist proj bear m s)[0]? = s[0]? := by
  rw [resolve_conflicts]
  exact foldl_conflictStep_getElem? dist proj bear m _ s 0 fun p hp =>
    Nat.pos_iff_ne_zero.mp (Nat.lt_of_le_of_lt (Nat.zero_le p.1) (pairList_lt _ p hp).1)

theorem identify_forced (locs : List Location)
    (hall : ∀ loc ∈ locs, isAnchor loc = false) :
    identify_anchor_locations locs = [0] := by
  have hfil : ((List.range locs.length).filter fun i => isAnchor locs[i]!) = [] := by
    rw [List.filter_eq_nil_iff]
    intro a ha
    rw [List.mem_range] at ha
    rw [getElem!_pos locs a ha]
    simp [hall locs[a] (List.getElem_mem ha)]
  rw [identify_anchor_locations, hfil]
  rfl

theorem run_nonempty (oracle : ℕ → Option (ℝ × ℝ)) (dist : ℝ × ℝ → ℝ × ℝ → ℝ)
    (proj : ℝ × ℝ → ℝ → ℝ → ℝ × ℝ) (bear : ℕ → ℕ → ℝ) (locs : List Location)
    (hne : locs ≠ []) :
    assign_coordinates_to_world oracle dist proj bear locs =
      { locs := resolve_conflicts dist proj bear 5
          (resolve_relative_positions oracle (identify_anchor_locations locs)
            (distribute_anchor_locations (identify_anchor_locations locs) locs)),
        committed := true,
        summary := ⟨locs.length,
          (resolve_conflicts dist proj bear 5
            (resolve_relative_positions oracle (identify_anchor_locations locs)
              (distribute_anchor_locations (identify_anchor_locations locs) locs))).countP
                (fun l => l.coordinates.isSome),
          (identify_anchor_locations locs).length,
          locs.length - (identify_anchor_locations locs).length⟩ } := by
  have hemp : locs.isEmpty = false := by
    cases locs with
    | nil => exact absurd rfl hne
    | cons l ls => rfl
  rw [assign_coordinates_to_world, hemp]
  simp only [Bool.false_eq_true, if_false]

theorem distribute_getElem?_not_mem (aidx : List ℕ) (locs : List Location) (i : ℕ)
    (hi : i ∉ aidx) :
    (distribute_anchor_locations aidx locs)[i]? = locs[i]? := by
  rw [distribute_anchor_locations, getElem?_updateEach]
  cases locs[i]? with
  | none => rfl
  | some l => simp [hi]

theorem resolve_getElem?_fail (oracle : ℕ → Option (ℝ × ℝ)) (aidx : List ℕ)
    (locs : List Location) (i : ℕ) (hi : i ∉ aidx)
    (hor : calculate_coordinates_from_parse (oracle i) = none) :
    (resolve_relative_positions oracle aidx locs)[i]? = locs[i]? := by
  rw [resolve_relative_positions, getElem?_updateEach]
  cases locs[i]? with
  | none => rfl
  | some l => simp [hi, hor]

theorem resolve_getElem?_stored (oracle : ℕ → Option (ℝ × ℝ)) (aidx : List ℕ)
    (locs : List Location) (i : ℕ) (c : ℝ × ℝ) (hi : i ∉ aidx)
    (hor : calculate_coordinates_from_parse (oracle i) = some c) :
    (resolve_relative_positions oracle aidx locs)[i]? =
      (locs[i]?).map fun l => { l with coordinates := some c } := by
  rw [resolve_relative_positions, getElem?_updateEach]
  cases locs[i]? with
  | none => rfl
  | some l => simp [hi, hor]

theorem conflictStep_preserves_none (dist : ℝ × ℝ → ℝ × ℝ → ℝ)
    (proj : ℝ × ℝ → ℝ → ℝ → ℝ × ℝ) (bear : ℕ → ℕ → ℝ) (m : ℝ) (s : List Location)
    (p : ℕ × ℕ) (i : ℕ) (l : Location) (hi : s[i]? = some l)
    (hl : l.coordinates = none) :
    (conflictStep dist proj bear m s p)[i]? = some l := by
  by_cases hp : p.2 = i
  · subst hp
    cases h1 : s[p.1]? with
    | none => simp only [conflictStep, h1]; exact hi
    | some l1 =>
      cases hc1 : l1.coordinates with
      | none => simp only [conflictStep, h1, hc1]; exact hi
      | some c1 => simp only [conflictStep, h1, hc1, hi, hl]
  · rw [conflictStep_getElem?_of_ne dist proj bear m s p i hp]
    exact hi

theorem foldl_conflictStep_preserves_none (dist : ℝ × ℝ → ℝ × ℝ → ℝ)
    (proj : ℝ × ℝ → ℝ → ℝ → ℝ × ℝ) (bear : ℕ → ℕ → ℝ) (m : ℝ) (ps : List (ℕ × ℕ))
    (s : List Location) (i : ℕ) (l : Location) (hi : s[i]? = some l)
    (hl : l.coordinates = none) :
    (ps.foldl (conflictStep dist proj bear m) s)[i]? = some l := by
  induction ps generalizing s with
  | nil => exact hi
  | cons p ps ih =>
    exact ih _ (conflictStep_preserves_none dist proj bear m s p i l hi hl)

theorem conflictStep_far (dist : ℝ × ℝ → ℝ × ℝ → ℝ) (proj : ℝ × ℝ → ℝ → ℝ → ℝ × ℝ)
    (bear : ℕ → ℕ → ℝ) (m : ℝ) (s : List Location) (p : ℕ × ℕ) (l1 l2 : Location)
    (c1 c2 : ℝ × ℝ) (h1 : s[p.1]? = some l1) (hc1 : l1.coordinates = some c1)
    (h2 : s[p.2]? = some l2) (hc2 : l2.coordinates = some c2)
    (hfar : ¬ dist c1 c2 / 1000 < m) :
    conflictStep dist proj bear m s p = s := by
  simp only [conflictStep, h1, hc1, h2, hc2]
  exact if_neg hfar

theorem conflictStep_fire (dist : ℝ × ℝ → ℝ × ℝ → ℝ) (proj : ℝ × ℝ → ℝ → ℝ → ℝ × ℝ)
    (bear : ℕ → ℕ → ℝ) (m : ℝ) (s : List Location) (p : ℕ × ℕ) (l1 l2 : Location)
    (c1 c2 : ℝ × ℝ) (h1 : s[p.1]? = some l1) (hc1 : l1.coordinates = some c1)
    (h2 : s[p.2]? = some l2) (hc2 : l2.coordinates = some c2)
    (hnear : dist c1 c2 / 1000 < m) :
    conflictStep dist proj bear m s p =
      s.set p.2 { l2 with coordinates := some (adjust_location_with_offset proj (bear p.1 p.2) 10 c2) } := by
  simp only [conflictStep, h1, hc1, h2, hc2]
  exact if_pos hnear

theorem identify_pair (l0 l1 : Location) (h0 : isAnchor l0 = true)
    (h1 : isAnchor l1 = false) :
    identify_anchor_locations [l0, l1] = [0] := by
  have hfil : ((List.range ([l0, l1] : List Location).length).filter
      fun i => isAnchor [l0, l1][i]!) = [0] := by
    rw [show List.range ([l0, l1] : List Location).length = [0, 1] from rfl]
    rw [List.filter_cons, List.filter_cons, List.filter_nil]
    rw [show ([l0, l1] : List Location)[0]! = l0 from rfl,
      show ([l0, l1] : List Location)[1]! = l1 from rfl, h0, h1]
    rfl
  rw [identify_anchor_locations, hfil]
  rfl

theorem identify_single (l : Location) (h : isAnchor l = true) :
    identify_anchor_locations [l] = [0] := by
  have hfil : ((List.range ([l] : List Location).length).filter
      fun i => isAnchor [l][i]!) = [0] := by
    rw [show List.range ([l] : List Location).length = [0] from rfl]
    rw [List.filter_cons, List.filter_nil]
    rw [show ([l] : List Location)[0]! = l from rfl, h]
    rfl
  rw [identify_anchor_locations, hfil]
  rfl

theorem distribute_pair (l0 l1 : Location) :
    distribute_anchor_locations [0] [l0, l1] =
      [{ l0 with coordinates := some ((0 : ℝ), 0) }, l1] := by
  rw [distribute_anchor_locations]
  rw [show updateEach (fun i loc =>
      if i ∈ ([0] : List ℕ) then
        { loc with coordinates := some (anchor_slot_point (([0] : List ℕ).indexOf i)
            ([0] : List ℕ).length) }
      else loc) 0 [l0, l1] =
    [if 0 ∈ ([0] : List ℕ) then
        { l0 with coordinates := some (anchor_slot_point (([0] : List ℕ).indexOf 0) 1) }
      else l0,
     if 1 ∈ ([0] : List ℕ) then
        { l1 with coordinates := some (anchor_slot_point (([0] : List ℕ).indexOf 1) 1) }
      else l1] from rfl]
  rw [if_pos (by simp), if_neg (by simp)]
  rw [show ([0] : List ℕ).indexOf 0 = 0 from rfl]
  rw [show anchor_slot_point 0 1 = ((0 : ℝ), 0) from rfl]

theorem distribute_single (l : Location) :
    distribute_anchor_locations [0] [l] =
      [{ l with coordinates := some ((0 : ℝ), 0) }] := by
  rw [distribute_anchor_locations]
  rw [show updateEach (fun i loc =>
      if i ∈ ([0] : List ℕ) then
        { loc with coordinates := some (anchor_slot_point (([0] : List ℕ).indexOf i)
            ([0] : List ℕ).length) }
      else loc) 0 [l] =
    [if 0 ∈ ([0] : List ℕ) then
        { l with coordinates := some (anchor_slot_point (([0] : List ℕ).indexOf 0) 1) }
      else l] from rfl]
  rw [if_pos (by simp)]
  rw [show ([0] : List ℕ).indexOf 0 = 0 from rfl]
  rw [show anchor_slot_point 0 1 = ((0 : ℝ), 0) from rfl]

theorem resolve_pair (oracle : ℕ → Option (ℝ × ℝ)) (a b : Location) :
    resolve_relative_positions oracle [0] [a, b] =
      [a, match calculate_coordinates_from_parse (oracle 1) with
          | some c => { b with coordinates := some c }
          | none => b] := by
  rw [resolve_relative_positions]
  rw [show updateEach (fun i loc =>
      if i ∈ ([0] : List ℕ) then loc
      else
        match calculate_coordinates_from_parse (oracle i) with
        | some c => { loc with coordinates := some c }
        | none => loc) 0 [a, b] =
    [if 0 ∈ ([0] : List ℕ) then a
      else match calculate_coordinates_from_parse (oracle 0) with
        | some c => { a with coordinates := some c }
        | none => a,
     if 1 ∈ ([0] : List ℕ) then b
      else match calculate_coordinates_from_parse (oracle 1) with
        | some c => { b with coordinates := some c }
        | none => b] from rfl]
  rw [if_pos (by simp), if_neg (by simp)]

theorem resolve_single (oracle : ℕ → Option (ℝ × ℝ)) (a : Location) :
    resolve_relative_positions oracle [0] [a] = [a] := by
  rw [resolve_relative_positions]
  rw [show updateEach (fun i loc =>
      if i ∈ ([0] : List ℕ) then loc
      else
        match calculate_coordinates_from_parse (oracle i) with
        | some c => { loc with coordinates := some c }
        | none => loc) 0 [a] =
    [if 0 ∈ ([0] : List ℕ) then a
      else match calculate_coordinates_from_parse (oracle 0) with
        | some c => { a with coordinates := some c }
        | none => a] from rfl]
  rw [if_pos (by simp)]

theorem resolve_conflicts_single (dist : ℝ × ℝ → ℝ × ℝ → ℝ)
    (proj : ℝ × ℝ → ℝ → ℝ → ℝ × ℝ) (bear : ℕ → ℕ → ℝ) (m : ℝ) (a : Location) :
    resolve_conflicts dist proj bear m [a] = [a] := by
  rw [resolve_conflicts]
  rw [show pairList ([a] : List Location).length = [] from rfl]
  rfl

theorem resolve_conflicts_pair (dist : ℝ × ℝ → ℝ × ℝ → ℝ)
    (proj : ℝ × ℝ → ℝ → ℝ → ℝ × ℝ) (bear : ℕ → ℕ → ℝ) (m : ℝ) (a b : Location) :
    resolve_conflicts dist proj bear m [a, b] =
      conflictStep dist proj bear m [a, b] (0, 1) := by
  rw [resolve_conflicts]
  rw [show pairList ([a, b] : List Location).length = [(0, 1)] from rfl]
  rfl

theorem calc_parse_none : calculate_coordinates_from_parse none = none := rfl

theorem calc_parse_out (lat lon : ℝ)
    (h : ¬ ((-40 ≤ lat ∧ lat ≤ 40) ∧ (-180 ≤ lon ∧ lon ≤ 180))) :
    calculate_coordinates_from_parse (some (lat, lon)) = none := by
  simp only [calculate_coordinates_from_parse]
  exact if_neg h

theorem calc_parse_in (lat lon : ℝ)
    (h : (-40 ≤ lat ∧ lat ≤ 40) ∧ (-180 ≤ lon ∧ lon ≤ 180)) :
    calculate_coordinates_from_parse (some (lat, lon)) = some (lat, lon) := by
  simp only [calculate_coordinates_from_parse]
  exact if_pos h

theorem calc_parse_bounds (o : Option (ℝ × ℝ)) (c : ℝ × ℝ)
    (h : calculate_coordinates_from_parse o = some c) : inWorldBounds c := by
  cases o with
  | none => exact absurd h (by rw [calc_parse_none]; exact fun hx => Option.noConfusion hx)
  | some p =>
    obtain ⟨lat, lon⟩ := p
    by_cases hb : (-40 ≤ lat ∧ lat ≤ 40) ∧ (-180 ≤ lon ∧ lon ≤ 180)
    · rw [calc_parse_in lat lon hb] at h
      cases h
      exact hb
    · rw [calc_parse_out lat lon hb] at h
      cases h

theorem conflictStep_snd_none (dist : ℝ × ℝ → ℝ × ℝ → ℝ) (proj : ℝ × ℝ → ℝ → ℝ → ℝ × ℝ)
    (bear : ℕ → ℕ → ℝ) (m : ℝ) (s : List Location) (p : ℕ × ℕ) (l2 : Location)
    (h2 : s[p.2]? = some l2) (hc2 : l2.coordinates = none) :
    conflictStep dist proj bear m s p = s := by
  cases h1 : s[p.1]? with
  | none => simp only [conflictStep, h1]
  | some l1 =>
    cases hc1 : l1.coordinates with
    | none => simp only [conflictStep, h1, hc1]
    | some c1 => simp only [conflictStep, h1, hc1, h2, hc2]

theorem clamp40_mem (v : ℝ) : -40 ≤ clamp40 v ∧ clamp40 v ≤ 40 := by
  rw [clamp40]
  exact ⟨le_max_left _ _, max_le (by norm_num) (min_le_left _ _)⟩

theorem clamp40_pair_bounds (a b : ℝ) : inWorldBounds (clamp40 a, clamp40 b) := by
  obtain ⟨h1, h2⟩ := clamp40_mem a
  obtain ⟨h3, h4⟩ := clamp40_mem b
  exact ⟨⟨h1, h2⟩, by constructor <;> [linarith; linarith]⟩

theorem fibonacci_sphere_point_bounds (i n : ℕ) :
    inWorldBounds (fibonacci_sphere_point i n) :=
  clamp40_pair_bounds _ _

theorem anchor_slot_point_bounds (j n : ℕ) : inWorldBounds (anchor_slot_point j n) := by
  rw [anchor_slot_point]
  by_cases h : j = 0
  · rw [if_pos h]
    exact ⟨⟨by norm_num, by norm_num⟩, ⟨by norm_num, by norm_num⟩⟩
  · rw [if_neg h]
    exact fibonacci_sphere_point_bounds _ _

theorem adjust_bounds (proj : ℝ × ℝ → ℝ → ℝ → ℝ × ℝ) (bearing offset_km : ℝ)
    (c : ℝ × ℝ) : inWorldBounds (adjust_location_with_offset proj bearing offset_km c) :=
  clamp40_pair_bounds _ _

theorem mem_updateEach (f : ℕ → Location → Location) (k : ℕ) (ls : List Location)
    (l' : Location) (h : l' ∈ updateEach f k ls) : ∃ i l, l ∈ ls ∧ l' = f i l := by
  induction ls generalizing k with
  | nil => cases h
  | cons a as ih =>
    rw [updateEach] at h
    rcases List.mem_cons.mp h with h | h
    · exact ⟨k, a, List.mem_cons_self a as, h⟩
    · obtain ⟨i, l, hl, he⟩ := ih (k + 1) h
      exact ⟨i, l, List.mem_cons_of_mem a hl, he⟩

theorem distribute_allInBounds (aidx : List ℕ) (locs : List Location)
    (h : allInBounds locs) : allInBounds (distribute_anchor_locations aidx locs) := by
  intro l' hl' c hc
  rw [distribute_anchor_locations] at hl'
  obtain ⟨i, l, hl, rfl⟩ := mem_updateEach _ _ _ _ hl'
  by_cases hm : i ∈ aidx
  · rw [if_pos hm] at hc
    cases hc
    exact anchor_slot_point_bounds _ _
  · rw [if_neg hm] at hc
    exact h l hl c hc

theorem resolve_allInBounds (oracle : ℕ → Option (ℝ × ℝ)) (aidx : List ℕ)
    (locs : List Location) (h : allInBounds locs) :
    allInBounds (resolve_relative_positions oracle aidx locs) := by
  intro l' hl' c hc
  rw [resolve_relative_positions] at hl'
  obtain ⟨i, l, hl, rfl⟩ := mem_updateEach _ _ _ _ hl'
  by_cases hm : i ∈ aidx
  · rw [if_pos hm] at hc
    exact h l hl c hc
  · rw [if_neg hm] at hc
    cases ho : calculate_coordinates_from_parse (oracle i) with
    | none =>
      rw [ho] at hc
      exact h l hl c hc
    | some c' =>
      rw [ho] at hc
      cases hc
      exact calc_parse_bounds _ _ ho

theorem conflictStep_cases (dist : ℝ × ℝ → ℝ × ℝ → ℝ) (proj : ℝ × ℝ → ℝ → ℝ → ℝ × ℝ)
    (bear : ℕ → ℕ → ℝ) (m : ℝ) (s : List Location) (p : ℕ × ℕ) :
    conflictStep dist proj bear m s p = s ∨
    ∃ l2 c2, s[p.2]? = some l2 ∧ l2.coordinates = some c2 ∧
      conflictStep dist proj bear m s p =
        s.set p.2 { l2 with coordinates := some (adjust_location_with_offset proj (bear p.1 p.2) 10 c2) } := by
  cases h1 : s[p.1]? with
  | none => left; simp only [conflictStep, h1]
  | some l1 =>
    cases hc1 : l1.coordinates with
    | none => left; simp only [conflictStep, h1, hc1]
    | some c1 =>
      cases h2 : s[p.2]? with
      | none => left; simp only [conflictStep, h1, hc1, h2]
      | some l2 =>
        cases hc2 : l2.coordinates with
        | none => left; simp only [conflictStep, h1, hc1, h2, hc2]
        | some c2 =>
          by_cases hd : dist c1 c2 / 1000 < m
          · right
            exact ⟨l2, c2, rfl, hc2,
              conflictStep_fire dist proj bear m s p l1 l2 c1 c2 h1 hc1 h2 hc2 hd⟩
          · left
            exact conflictStep_far dist proj bear m s p l1 l2 c1 c2 h1 hc1 h2 hc2 hd

theorem conflictStep_allInBounds (dist : ℝ × ℝ → ℝ × ℝ → ℝ)
    (proj : ℝ × ℝ → ℝ → ℝ → ℝ × ℝ) (bear : ℕ → ℕ → ℝ) (m : ℝ) (s : List Location)
    (p : ℕ × ℕ) (h : allInBounds s) : allInBounds (conflictStep dist proj bear m s p) := by
  rcases conflictStep_cases dist proj bear m s p with hcase | ⟨l2, c2, _, _, hcase⟩
  · rw [hcase]; exact h
  · rw [hcase]
    intro l' hl' c hc
    rcases List.mem_or_eq_of_mem_set hl' with hl | rfl
    · exact h l' hl c hc
    · cases hc
      exact adjust_bounds _ _ _ _

theorem resolve_conflicts_allInBounds (dist : ℝ × ℝ → ℝ × ℝ → ℝ)
    (proj : ℝ × ℝ → ℝ → ℝ → ℝ × ℝ) (bear : ℕ → ℕ → ℝ) (m : ℝ) (s : List Location)
    (h : allInBounds s) : allInBounds (resolve_conflicts dist proj bear m s) := by
  rw [resolve_conflicts]
  generalize pairList s.length = ps
  induction ps generalizing s with
  | nil => exact h
  | cons p ps ih =>
    rw [List.foldl_cons]
    exact ih _ (conflictStep_allInBounds dist proj bear m s p h)

theorem atan2_cos_sin (θ : ℝ) (h : θ ∈ Set.Ioc (-Real.pi) Real.pi) :
    atan2 (Real.sin θ) (Real.cos θ) = θ := by
  rw [atan2]
  rw [show (⟨Real.cos θ, Real.sin θ⟩ : ℂ) = Complex.cos θ + Complex.sin θ * Complex.I by
    rw [Complex.mk_eq_add_mul_I, ← Complex.ofReal_cos, ← Complex.ofReal_sin]]
  exact Complex.arg_cos_add_sin_mul_I h

theorem atan2_zero_pos (x : ℝ) (hx : 0 ≤ x) : atan2 0 x = 0 := by
  rw [atan2]
  rw [show (⟨x, 0⟩ : ℂ) = (x : ℂ) from rfl]
  exact Complex.arg_ofReal_of_nonneg hx

theorem clamp40_of_ge (v : ℝ) (h : 40 ≤ v) : clamp40 v = 40 := by
  rw [clamp40, min_eq_left h, max_eq_right (by norm_num : (-40 : ℝ) ≤ 40)]

theorem clamp40_zero : clamp40 0 = 0 := by
  rw [clamp40, min_eq_right (by norm_num), max_eq_right (by norm_num)]

theorem deltaR_pos : 0 < 10000 / earthRadiusM := by
  rw [earthRadiusM]
  norm_num

theorem deltaR_small : 10000 / earthRadiusM < 1 / 100 := by
  rw [earthRadiusM]
  norm_num

theorem ST_Distance_self (c : ℝ × ℝ) : ST_Distance c c = 0 := by
  rw [ST_Distance, centralAngle]
  simp only [sub_self, Real.cos_zero, mul_one]
  rw [show Real.sin (toRad c.1) * Real.sin (toRad c.1) +
      Real.cos (toRad c.1) * Real.cos (toRad c.1) = 1 by
    have h := Real.sin_sq_add_cos_sq (toRad c.1)
    nlinarith]
  rw [Real.arccos_one, mul_zero]

theorem ST_Distance_100_40 : ST_Distance (0, 100) (0, 40) = earthRadiusM * (Real.pi / 3) := by
  have h : ST_Distance (0, 100) (0, 40) =
      earthRadiusM * Real.arccos (Real.sin (toRad 0) * Real.sin (toRad 0) +
        Real.cos (toRad 0) * Real.cos (toRad 0) * Real.cos (toRad 40 - toRad 100)) := rfl
  rw [h]
  rw [show toRad 0 = 0 by rw [toRad]; norm_num]
  rw [Real.sin_zero, Real.cos_zero]
  rw [show toRad 40 - toRad 100 = -(Real.pi / 3) by rw [toRad, toRad]; ring]
  rw [Real.cos_neg, show (0 : ℝ) * 0 + 1 * 1 * Real.cos (Real.pi / 3) =
    Real.cos (Real.pi / 3) by ring]
  rw [Real.arccos_cos (by positivity) (by linarith [Real.pi_pos])]

/-- Projection of 10 km due north from `(40, 0)` lands at latitude
`40 + (10000 / R) · (180 / π) > 40`, longitude 0. -/
theorem ST_Project_north_40 :
    ST_Project (40, 0) (10 * 1000) (0 * Real.pi / 180) =
      (40 + 10000 / earthRadiusM * 180 / Real.pi, 0) := by
  have hπ := Real.pi_gt_three
  have hπ0 := Real.pi_pos
  have hδ0 := deltaR_pos
  have hδ1 := deltaR_small
  have hst : ST_Project ((40 : ℝ), (0 : ℝ)) (10 * 1000) (0 * Real.pi / 180) =
      (toDeg (projectRad (toRad 40) (toRad 0) (0 * Real.pi / 180) (10 * 1000 / earthRadiusM)).1,
       toDeg (projectRad (toRad 40) (toRad 0) (0 * Real.pi / 180) (10 * 1000 / earthRadiusM)).2) := rfl
  rw [hst]
  rw [show (0 : ℝ) * Real.pi / 180 = 0 by ring]
  rw [show (10 : ℝ) * 1000 / earthRadiusM = 10000 / earthRadiusM by norm_num]
  rw [show toRad 0 = 0 by rw [toRad]; norm_num]
  set δ : ℝ := 10000 / earthRadiusM with hδ
  have hφ : toRad 40 = 2 * Real.pi / 9 := by rw [toRad]; ring
  have hproj : projectRad (toRad 40) 0 0 δ =
      (Real.arcsin (Real.sin (toRad 40) * Real.cos δ + Real.cos (toRad 40) * Real.sin δ * Real.cos 0),
       0 + atan2 (Real.sin 0 * Real.sin δ * Real.cos (toRad 40))
         (Real.cos δ - Real.sin (toRad 40) *
           (Real.sin (toRad 40) * Real.cos δ + Real.cos (toRad 40) * Real.sin δ * Real.cos 0))) := rfl
  rw [hproj, Real.cos_zero, Real.sin_zero, mul_one]
  rw [show Real.sin (toRad 40) * Real.cos δ + Real.cos (toRad 40) * Real.sin δ =
    Real.sin (toRad 40 + δ) from (Real.sin_add (toRad 40) δ).symm]
  have harcsin : Real.arcsin (Real.sin (toRad 40 + δ)) = toRad 40 + δ := by
    apply Real.arcsin_sin
    · rw [hφ]; nlinarith
    · rw [hφ]; nlinarith
  rw [harcsin]
  have hsinφ_lt : Real.sin (toRad 40) < Real.sqrt 2 / 2 := by
    rw [← Real.sin_pi_div_four]
    apply Real.strictMonoOn_sin ⟨by rw [hφ]; nlinarith, by rw [hφ]; nlinarith⟩
      ⟨by nlinarith, by nlinarith⟩
    rw [hφ]; nlinarith
  have hsinφ_nonneg : 0 ≤ Real.sin (toRad 40) := by
    apply Real.sin_nonneg_of_nonneg_of_le_pi
    · rw [hφ]; positivity
    · rw [hφ]; nlinarith
  have hcosδ_gt : Real.sqrt 2 / 2 < Real.cos δ := by
    rw [← Real.cos_pi_div_four]
    apply Real.strictAntiOn_cos ⟨by nlinarith, by nlinarith⟩ ⟨by nlinarith, by nlinarith⟩
    nlinarith
  have hx_pos : 0 ≤ Real.cos δ - Real.sin (toRad 40) * Real.sin (toRad 40 + δ) := by
    have h1 : Real.sin (toRad 40) * Real.sin (toRad 40 + δ) ≤ Real.sin (toRad 40) :=
      mul_le_of_le_one_right hsinφ_nonneg (Real.sin_le_one _)
    linarith
  rw [show (0 : ℝ) * Real.sin δ * Real.cos (toRad 40) = 0 by ring]
  rw [atan2_zero_pos _ hx_pos, add_zero]
  rw [toDeg, toDeg, hφ]
  rw [Prod.mk.injEq]
  constructor
  · field_simp
    ring
  · ring

/-- Projection of 10 km due east from the equator point `(0, 100)`
lands at latitude 0, longitude `100 + (10000 / R) · (180 / π) > 40`. -/
theorem ST_Project_east_100 :
    ST_Project (0, 100) (10 * 1000) (90 * Real.pi / 180) =
      (0, 100 + 10000 / earthRadiusM * 180 / Real.pi) := by
  have hπ := Real.pi_gt_three
  have hπ0 := Real.pi_pos
  have hδ0 := deltaR_pos
  have hδ1 := deltaR_small
  have hst : ST_Project ((0 : ℝ), (100 : ℝ)) (10 * 1000) (90 * Real.pi / 180) =
      (toDeg (projectRad (toRad 0) (toRad 100) (90 * Real.pi / 180) (10 * 1000 / earthRadiusM)).1,
       toDeg (projectRad (toRad 0) (toRad 100) (90 * Real.pi / 180) (10 * 1000 / earthRadiusM)).2) := rfl
  rw [hst]
  rw [show (90 : ℝ) * Real.pi / 180 = Real.pi / 2 by ring]
  rw [show (10 : ℝ) * 1000 / earthRadiusM = 10000 / earthRadiusM by norm_num]
  rw [show toRad 0 = 0 by rw [toRad]; norm_num]
  set δ : ℝ := 10000 / earthRadiusM with hδ
  have hproj : projectRad 0 (toRad 100) (Real.pi / 2) δ =
      (Real.arcsin (Real.sin 0 * Real.cos δ + Real.cos 0 * Real.sin δ * Real.cos (Real.pi / 2)),
       toRad 100 + atan2 (Real.sin (Real.pi / 2) * Real.sin δ * Real.cos 0)
         (Real.cos δ - Real.sin 0 *
           (Real.sin 0 * Real.cos δ + Real.cos 0 * Real.sin δ * Real.cos (Real.pi / 2)))) := rfl
  rw [hproj, Real.sin_zero, Real.cos_zero, Real.cos_pi_div_two, Real.sin_pi_div_two]
  rw [show (0 : ℝ) * Real.cos δ + 1 * Real.sin δ * 0 = 0 by ring]
  rw [Real.arcsin_zero]
  rw [show (1 : ℝ) * Real.sin δ * 1 = Real.sin δ by ring]
  rw [show Real.cos δ - 0 * 0 = Real.cos δ by ring]
  rw [atan2_cos_sin δ ⟨by nlinarith, by nlinarith⟩]
  rw [toDeg, toDeg, toRad]
  rw [Prod.mk.injEq]
  constructor
  · ring
  · field_simp

theorem adjust_east_100 :
    adjust_location_with_offset ST_Project 90 10 (0, 100) = (0, 40) := by
  have h : adjust_location_with_offset ST_Project 90 10 ((0 : ℝ), 100) =
      (clamp40 (ST_Project ((0 : ℝ), 100) (10 * 1000) (90 * Real.pi / 180)).1,
       clamp40 (ST_Project ((0 : ℝ), 100) (10 * 1000) (90 * Real.pi / 180)).2) := rfl
  rw [h, ST_Project_east_100]
  have hδπ : 0 < 10000 / earthRadiusM * 180 / Real.pi :=
    div_pos (mul_pos deltaR_pos (by norm_num)) Real.pi_pos
  rw [show ((0 : ℝ), 100 + 10000 / earthRadiusM * 180 / Real.pi).1 = 0 from rfl]
  rw [show ((0 : ℝ), 100 + 10000 / earthRadiusM * 180 / Real.pi).2 =
    100 + 10000 / earthRadiusM * 180 / Real.pi from rfl]
  rw [clamp40_zero, clamp40_of_ge _ (by linarith)]

theorem adjust_north_40 :
    adjust_location_with_offset ST_Project 0 10 (40, 0) = (40, 0) := by
  have h : adjust_location_with_offset ST_Project 0 10 ((40 : ℝ), 0) =
      (clamp40 (ST_Project ((40 : ℝ), 0) (10 * 1000) (0 * Real.pi / 180)).1,
       clamp40 (ST_Project ((40 : ℝ), 0) (10 * 1000) (0 * Real.pi / 180)).2) := rfl
  rw [h, ST_Project_north_40]
  have hδπ : 0 < 10000 / earthRadiusM * 180 / Real.pi :=
    div_pos (mul_pos deltaR_pos (by norm_num)) Real.pi_pos
  rw [show ((40 : ℝ) + 10000 / earthRadiusM * 180 / Real.pi, (0 : ℝ)).1 =
    40 + 10000 / earthRadiusM * 180 / Real.pi from rfl]
  rw [show ((40 : ℝ) + 10000 / earthRadiusM * 180 / Real.pi, (0 : ℝ)).2 = 0 from rfl]
  rw [clamp40_zero, clamp40_of_ge _ (by linarith)]

theorem arccos_inner_triangle {E : Type} [NormedAddCommGroup E] [InnerProductSpace ℝ E]
    (x y z : E) (hx : ‖x‖ = 1) (hy : ‖y‖ = 1) (hz : ‖z‖ = 1) :
    Real.arccos (inner x z : ℝ) ≤ Real.arccos (inner x y : ℝ) + Real.arccos (inner y z : ℝ) := by
  have hπ := Real.pi_pos
  have hxx : (inner x x : ℝ) = 1 := by rw [real_inner_self_eq_norm_sq, hx]; norm_num
  have hyy : (inner y y : ℝ) = 1 := by rw [real_inner_self_eq_norm_sq, hy]; norm_num
  have hzz : (inner z z : ℝ) = 1 := by rw [real_inner_self_eq_norm_sq, hz]; norm_num
  set α : ℝ := (inner x y : ℝ) with hα
  set β : ℝ := (inner y z : ℝ) with hβ
  set γ : ℝ := (inner x z : ℝ) with hγ
  have hα1 : |α| ≤ 1 := by
    rw [hα]
    calc |(inner x y : ℝ)| ≤ ‖x‖ * ‖y‖ := abs_real_inner_le_norm x y
      _ = 1 := by rw [hx, hy]; norm_num
  have hβ1 : |β| ≤ 1 := by
    rw [hβ]
    calc |(inner y z : ℝ)| ≤ ‖y‖ * ‖z‖ := abs_real_inner_le_norm y z
      _ = 1 := by rw [hy, hz]; norm_num
  have hα1' := abs_le.mp hα1
  have hβ1' := abs_le.mp hβ1
  have hγ1 : |γ| ≤ 1 := by
    rw [hγ]
    calc |(inner x z : ℝ)| ≤ ‖x‖ * ‖z‖ := abs_real_inner_le_norm x z
      _ = 1 := by rw [hx, hz]; norm_num
  have hcosa : Real.cos (Real.arccos α) = α := Real.cos_arccos hα1'.1 hα1'.2
  have hcosb : Real.cos (Real.arccos β) = β := Real.cos_arccos hβ1'.1 hβ1'.2
  have hsina : Real.sin (Real.arccos α) = Real.sqrt (1 - α ^ 2) := Real.sin_arccos α
  have hsinb : Real.sin (Real.arccos β) = Real.sqrt (1 - β ^ 2) := Real.sin_arccos β
  by_cases hab : Real.arccos α + Real.arccos β ≤ Real.pi
  · set u : E := x - α • y with hu
    set v : E := z - β • y with hv
    have hdecomp : γ = α * β + (inner u v : ℝ) := by
      have e1 : (inner u v : ℝ) =
          (inner x z : ℝ) - β * (inner x y : ℝ) - α * (inner y z : ℝ) +
            α * β * (inner y y : ℝ) := by
        rw [hu, hv]
        simp only [inner_sub_left, inner_sub_right, real_inner_smul_left,
          real_inner_smul_right]
        ring
      rw [e1, hyy, ← hα, ← hβ, ← hγ]
      ring
    have hnu : ‖u‖ = Real.sqrt (1 - α ^ 2) := by
      have e : (inner u u : ℝ) =
          (inner x x : ℝ) - α * (inner y x : ℝ) - α * (inner x y : ℝ) +
            α * α * (inner y y : ℝ) := by
        rw [hu]
        simp only [inner_sub_left, inner_sub_right, real_inner_smul_left,
          real_inner_smul_right]
        ring
      have hyx : (inner y x : ℝ) = α := (real_inner_comm x y).trans hα.symm
      have h2 : ‖u‖ ^ 2 = 1 - α ^ 2 := by
        rw [← real_inner_self_eq_norm_sq, e, hxx, hyy, hyx, ← hα]
        ring
      rw [← h2, Real.sqrt_sq (norm_nonneg u)]
    have hnv : ‖v‖ = Real.sqrt (1 - β ^ 2) := by
      have e : (inner v v : ℝ) =
          (inner z z : ℝ) - β * (inner y z : ℝ) - β * (inner z y : ℝ) +
            β * β * (inner y y : ℝ) := by
        rw [hv]
        simp only [inner_sub_left, inner_sub_right, real_inner_smul_left,
          real_inner_smul_right]
        ring
      have hzy : (inner z y : ℝ) = β := (real_inner_comm y z).trans hβ.symm
      have h2 : ‖v‖ ^ 2 = 1 - β ^ 2 := by
        rw [← real_inner_self_eq_norm_sq, e, hzz, hyy, hzy, ← hβ]
        ring
      rw [← h2, Real.sqrt_sq (norm_nonneg v)]
    have habsuv : |(inner u v : ℝ)| ≤ Real.sqrt (1 - α ^ 2) * Real.sqrt (1 - β ^ 2) := by
      calc |(inner u v : ℝ)| ≤ ‖u‖ * ‖v‖ := abs_real_inner_le_norm u v
        _ = Real.sqrt (1 - α ^ 2) * Real.sqrt (1 - β ^ 2) := by rw [hnu, hnv]
    have hkey : Real.cos (Real.arccos α + Real.arccos β) ≤ γ := by
      rw [Real.cos_add, hcosa, hcosb, hsina, hsinb]
      have h3 := (abs_le.mp habsuv).1
      linarith [hdecomp]
    calc Real.arccos γ ≤ Real.arccos (Real.cos (Real.arccos α + Real.arccos β)) :=
          Real.strictAntiOn_arccos.antitoneOn
            ⟨Real.neg_one_le_cos _, Real.cos_le_one _⟩
            ⟨(abs_le.mp hγ1).1, (abs_le.mp hγ1).2⟩ hkey
      _ = Real.arccos α + Real.arccos β :=
          Real.arccos_cos (add_nonneg (Real.arccos_nonneg α) (Real.arccos_nonneg β)) hab
  · push_neg at hab
    linarith [Real.arccos_le_pi γ]

theorem inner_sphereVec (a b : ℝ × ℝ) :
    (inner (sphereVec a) (sphereVec b) : ℝ) =
      Real.sin a.1 * Real.sin b.1 + Real.cos a.1 * Real.cos b.1 * Real.cos (b.2 - a.2) := by
  rw [sphereVec, sphereVec]
  simp only [PiLp.inner_apply, RCLike.inner_apply, conj_trivial, Fin.sum_univ_three,
    Matrix.cons_val_zero, Matrix.cons_val_one, Matrix.head_cons, Matrix.cons_val_two,
    Matrix.tail_cons]
  rw [Real.cos_sub]
  ring

theorem norm_sphereVec (a : ℝ × ℝ) : ‖sphereVec a‖ = 1 := by
  have h : ‖sphereVec a‖ ^ 2 = 1 := by
    rw [← real_inner_self_eq_norm_sq, inner_sphereVec, sub_self, Real.cos_zero]
    nlinarith [Real.sin_sq_add_cos_sq a.1]
  have h2 : ‖sphereVec a‖ = Real.sqrt (‖sphereVec a‖ ^ 2) :=
    (Real.sqrt_sq (norm_nonneg _)).symm
  rw [h2, h, Real.sqrt_one]

theorem centralAngle_eq_arccos (a b : ℝ × ℝ) :
    centralAngle a b = Real.arccos (inner (sphereVec a) (sphereVec b) : ℝ) := by
  rw [centralAngle, inner_sphereVec]

theorem centralAngle_triangle (a b c : ℝ × ℝ) :
    centralAngle a c ≤ centralAngle a b + centralAngle b c := by
  rw [centralAngle_eq_arccos, centralAngle_eq_arccos, centralAngle_eq_arccos]
  exact arccos_inner_triangle _ _ _ (norm_sphereVec a) (norm_sphereVec b) (norm_sphereVec c)

theorem centralAngle_symm (a b : ℝ × ℝ) : centralAngle a b = centralAngle b a := by
  rw [centralAngle_eq_arccos, centralAngle_eq_arccos]
  rw [real_inner_comm (sphereVec b) (sphereVec a)]

theorem ST_Distance_symm (a b : ℝ × ℝ) : ST_Distance a b = ST_Distance b a := by
  rw [ST_Distance, ST_Distance, centralAngle_symm]

theorem ST_Distance_triangle (a b c : ℝ × ℝ) :
    ST_Distance a c ≤ ST_Distance a b + ST_Distance b c := by
  rw [ST_Distance, ST_Distance, ST_Distance, ← mul_add]
  have hR : (0 : ℝ) ≤ earthRadiusM := by rw [earthRadiusM]; norm_num
  exact mul_le_mul_of_nonneg_left (centralAngle_triangle _ _ _) hR

theorem ST_Distance_project (c : ℝ × ℝ) (B D : ℝ) (hB0 : 0 ≤ B) (hB1 : B < 360)
    (hD : 0 < D) (hdom : |toRad c.1| + D / earthRadiusM < Real.pi / 2) :
    ST_Distance c (ST_Project c D (toRad B)) = D := by
  have hR : (0 : ℝ) < earthRadiusM := by rw [earthRadiusM]; norm_num
  have hπ := Real.pi_pos
  have hθ0 : 0 ≤ toRad B := by rw [toRad]; positivity
  have hθ1 : toRad B < 2 * Real.pi := by rw [toRad]; nlinarith
  have hδ : 0 < D / earthRadiusM := by positivity
  obtain ⟨hdist, _⟩ := projectRad_roundtrip (toRad c.1) (toRad c.2) (toRad B)
    (D / earthRadiusM) hθ0 hθ1 hδ hdom
  set p : ℝ × ℝ := projectRad (toRad c.1) (toRad c.2) (toRad B) (D / earthRadiusM) with hp
  have hstp : ST_Project c D (toRad B) = (toDeg p.1, toDeg p.2) := rfl
  have h1 : ST_Distance c (toDeg p.1, toDeg p.2) =
      earthRadiusM * centralAngle (toRad c.1, toRad c.2)
        (toRad (toDeg p.1), toRad (toDeg p.2)) := rfl
  rw [hstp, h1, toRad_toDeg, toRad_toDeg, Prod.mk.eta, hdist]
  field_simp

theorem clamp40_id (v : ℝ) (h1 : -40 ≤ v) (h2 : v ≤ 40) : clamp40 v = v := by
  rw [clamp40, min_eq_right h2, max_eq_right h1]

theorem adjust_no_clamp (B : ℝ) (c : ℝ × ℝ)
    (h1 : -40 ≤ (ST_Project c (10 * 1000) (toRad B)).1)
    (h2 : (ST_Project c (10 * 1000) (toRad B)).1 ≤ 40)
    (h3 : -40 ≤ (ST_Project c (10 * 1000) (toRad B)).2)
    (h4 : (ST_Project c (10 * 1000) (toRad B)).2 ≤ 40) :
    adjust_location_with_offset ST_Project B 10 c = ST_Project c (10 * 1000) (toRad B) := by
  have h : adjust_location_with_offset ST_Project B 10 c =
      (clamp40 (ST_Project c (10 * 1000) (B * Real.pi / 180)).1,
       clamp40 (ST_Project c (10 * 1000) (B * Real.pi / 180)).2) := rfl
  rw [h]
  rw [show B * Real.pi / 180 = toRad B from rfl]
  rw [clamp40_id _ h1 h2, clamp40_id _ h3 h4]

/-! ### Claim C10 -/

/-- C10: whenever the conflict resolver adjusts a location, the stored
post-adjustment coordinate has both latitude and longitude clamped to
`[-40, 40]` (first conjunct, for every projection result); in
particular a conflicting pair at longitude 100 — permissible for
relative locations — has its second member snapped to longitude 40
(second conjunct), a displacement of `R·π/3` meters, far exceeding the
stated 10 km offset (third conjunct). -/
theorem conflict_adjust_clamped :
    (∀ (proj : ℝ × ℝ → ℝ → ℝ → ℝ × ℝ) (bearing offset_km : ℝ) (c : ℝ × ℝ),
      -40 ≤ (adjust_location_with_offset proj bearing offset_km c).1 ∧
      (adjust_location_with_offset proj bearing offset_km c).1 ≤ 40 ∧
      -40 ≤ (adjust_location_with_offset proj bearing offset_km c).2 ∧
      (adjust_location_with_offset proj bearing offset_km c).2 ≤ 40) ∧
    ((resolve_conflicts ST_Distance ST_Project (fun _ _ => 90) 5
        [⟨"A", some "x", some (0, 100)⟩, ⟨"B", some "y", some (0, 100)⟩])[1]?).map
      Location.coordinates = some (some ((0 : ℝ), 40)) ∧
    ST_Distance (0, 100) (0, 40) > 10000 := by
  refine ⟨?_, ?_, ?_⟩
  · intro proj bearing offset_km c
    have h1 := clamp40_mem (proj c (offset_km * 1000) (bearing * Real.pi / 180)).1
    have h2 := clamp40_mem (proj c (offset_km * 1000) (bearing * Real.pi / 180)).2
    exact ⟨h1.1, h1.2, h2.1, h2.2⟩
  · rw [resolve_conflicts_pair, conflictStep_fire ST_Distance ST_Project (fun _ _ => 90) 5 _
      (0, 1) ⟨"A", some "x", some ((0 : ℝ), 100)⟩ ⟨"B", some "y", some ((0 : ℝ), 100)⟩
      ((0 : ℝ), 100) ((0 : ℝ), 100) rfl rfl rfl rfl
      (by rw [ST_Distance_self]; norm_num)]
    show some (some (adjust_location_with_offset ST_Project 90 10 ((0 : ℝ), 100))) =
      some (some ((0 : ℝ), 40))
    rw [adjust_east_100]
  · rw [ST_Distance_100_40, earthRadiusM]
    nlinarith [Real.pi_gt_three]

/-! ### Claim C7 -/

/-- C7 counterexample: two coincident locations at the latitude
boundary `(40, 0)` conflict (their distance, 0 km, is below 2 km); for
the random bearing 0 (due north) the 10 km offset is clamped straight
back to `(40, 0)`, so after the conflict-resolution pass the pair is
still coincident — the minimum separation (5 km) is not achieved. -/
theorem conflict_separation_counterexample :
    ST_Distance (40, 0) (40, 0) / 1000 < 2 ∧
    ((resolve_conflicts ST_Distance ST_Project (fun _ _ => 0) 5
        [⟨"A", some "x", some (40, 0)⟩, ⟨"B", some "y", some (40, 0)⟩])[0]?).map
      Location.coordinates = some (some ((40 : ℝ), 0)) ∧
    ((resolve_conflicts ST_Distance ST_Project (fun _ _ => 0) 5
        [⟨"A", some "x", some (40, 0)⟩, ⟨"B", some "y", some (40, 0)⟩])[1]?).map
      Location.coordinates = some (some ((40 : ℝ), 0)) ∧
    ¬ 5 ≤ ST_Distance (40, 0) (40, 0) / 1000 := by
  have hd := ST_Distance_self ((40 : ℝ), 0)
  refine ⟨by rw [hd]; norm_num, ?_, ?_, by rw [hd]; norm_num⟩
  · rw [resolve_conflicts_pair, conflictStep_fire ST_Distance ST_Project (fun _ _ => 0) 5 _
      (0, 1) ⟨"A", some "x", some ((40 : ℝ), 0)⟩ ⟨"B", some "y", some ((40 : ℝ), 0)⟩
      ((40 : ℝ), 0) ((40 : ℝ), 0) rfl rfl rfl rfl (by rw [hd]; norm_num)]
    rfl
  · rw [resolve_conflicts_pair, conflictStep_fire ST_Distance ST_Project (fun _ _ => 0) 5 _
      (0, 1) ⟨"A", some "x", some ((40 : ℝ), 0)⟩ ⟨"B", some "y", some ((40 : ℝ), 0)⟩
      ((40 : ℝ), 0) ((40 : ℝ), 0) rfl rfl rfl rfl (by rw [hd]; norm_num)]
    show some (some (adjust_location_with_offset ST_Project 0 10 ((40 : ℝ), 0))) =
      some (some ((40 : ℝ), 0))
    rw [adjust_north_40]

/-- C7 amended: for a two-location world whose pair conflicts
(distance below the 5 km threshold), and any random bearing
`B ∈ [0, 360)`, the second location is moved to the 10 km projection of
its current coordinate along `B`; provided that projected point lies
within the clamp box `[-40, 40]²` (so the `[-40, 40]` clamping is a
no-op) and the start point is away from the poles, after the pass the
two locations are more than the minimum separation (5 km) apart. -/
theorem conflict_separation_no_clamp (n1 n2 : String) (r1 r2 : Option String)
    (c1 c2 : ℝ × ℝ) (B : ℝ) (hB0 : 0 ≤ B) (hB1 : B < 360)
    (hconf : ST_Distance c1 c2 / 1000 < 5)
    (hdom : |toRad c2.1| + 10 * 1000 / earthRadiusM < Real.pi / 2)
    (hp1 : -40 ≤ (ST_Project c2 (10 * 1000) (toRad B)).1)
    (hp2 : (ST_Project c2 (10 * 1000) (toRad B)).1 ≤ 40)
    (hp3 : -40 ≤ (ST_Project c2 (10 * 1000) (toRad B)).2)
    (hp4 : (ST_Project c2 (10 * 1000) (toRad B)).2 ≤ 40) :
    resolve_conflicts ST_Distance ST_Project (fun _ _ => B) 5
      [⟨n1, r1, some c1⟩, ⟨n2, r2, some c2⟩] =
      [⟨n1, r1, some c1⟩, ⟨n2, r2, some (ST_Project c2 (10 * 1000) (toRad B))⟩] ∧
    5 < ST_Distance c1 (ST_Project c2 (10 * 1000) (toRad B)) / 1000 := by
  have hd10 : ST_Distance c2 (ST_Project c2 (10 * 1000) (toRad B)) = 10 * 1000 :=
    ST_Distance_project c2 B (10 * 1000) hB0 hB1 (by norm_num)
      (by
        rw [show (10 : ℝ) * 1000 / earthRadiusM = 10 * 1000 / earthRadiusM from rfl]
        exact hdom)
  constructor
  · rw [resolve_conflicts_pair, conflictStep_fire ST_Distance ST_Project (fun _ _ => B) 5 _
      (0, 1) ⟨n1, r1, some c1⟩ ⟨n2, r2, some c2⟩ c1 c2 rfl rfl rfl rfl hconf]
    rw [adjust_no_clamp B c2 hp1 hp2 hp3 hp4]
    rfl
  · have htri := ST_Distance_triangle c2 c1 (ST_Project c2 (10 * 1000) (toRad B))
    rw [ST_Distance_symm c2 c1, hd10] at htri
    have h5 : ST_Distance c1 c2 < 5000 := by linarith
    have h6 : 5000 < ST_Distance c1 (ST_Project c2 (10 * 1000) (toRad B)) := by linarith
    rw [lt_div_iff₀ (by norm_num : (0 : ℝ) < 1000)]
    linarith

theorem ST_Project_north_00 :
    ST_Project (0, 0) (10 * 1000) (toRad 0) =
      (10000 / earthRadiusM * 180 / Real.pi, 0) := by
  have hπ := Real.pi_gt_three
  have hπ0 := Real.pi_pos
  have hδ0 := deltaR_pos
  have hδ1 := deltaR_small
  have hst : ST_Project ((0 : ℝ), (0 : ℝ)) (10 * 1000) (toRad 0) =
      (toDeg (projectRad (toRad 0) (toRad 0) (toRad 0) (10 * 1000 / earthRadiusM)).1,
       toDeg (projectRad (toRad 0) (toRad 0) (toRad 0) (10 * 1000 / earthRadiusM)).2) := rfl
  rw [hst]
  rw [show toRad 0 = 0 by rw [toRad]; norm_num]
  rw [show (10 : ℝ) * 1000 / earthRadiusM = 10000 / earthRadiusM by norm_num]
  set δ : ℝ := 10000 / earthRadiusM with hδ
  have hproj : projectRad 0 0 0 δ =
      (Real.arcsin (Real.sin 0 * Real.cos δ + Real.cos 0 * Real.sin δ * Real.cos 0),
       0 + atan2 (Real.sin 0 * Real.sin δ * Real.cos 0)
         (Real.cos δ - Real.sin 0 *
           (Real.sin 0 * Real.cos δ + Real.cos 0 * Real.sin δ * Real.cos 0))) := rfl
  rw [hproj, Real.sin_zero, Real.cos_zero]
  rw [show (0 : ℝ) * Real.cos δ + 1 * Real.sin δ * 1 = Real.sin δ by ring]
  rw [show (0 : ℝ) * Real.sin δ * 1 = 0 by ring]
  rw [show Real.cos δ - 0 * Real.sin δ = Real.cos δ by ring]
  rw [Real.arcsin_sin (by nlinarith) (by nlinarith)]
  rw [atan2_zero_pos _ (Real.cos_nonneg_of_mem_Icc ⟨by nlinarith, by nlinarith⟩)]
  rw [add_zero, toDeg, toDeg]
  rw [Prod.mk.injEq]
  constructor
  · ring
  · ring

/-- Witness for the amended C7: a coincident pair at the origin, bearing
0, ends exactly 10 km apart. -/
theorem conflict_separation_no_clamp_witness :
    resolve_conflicts ST_Distance ST_Project (fun _ _ => 0) 5
      [⟨"A", some "x", some (0, 0)⟩, ⟨"B", some "y", some (0, 0)⟩] =
      [⟨"A", some "x", some (0, 0)⟩,
       ⟨"B", some "y", some (ST_Project (0, 0) (10 * 1000) (toRad 0))⟩] ∧
    5 < ST_Distance (0, 0) (ST_Project (0, 0) (10 * 1000) (toRad 0)) / 1000 :=
  conflict_separation_no_clamp "A" "B" (some "x") (some "y") ((0 : ℝ), 0) ((0 : ℝ), 0) 0
    (le_refl 0) (by norm_num)
    (by rw [ST_Distance_self]; norm_num)
    (by
      rw [show toRad ((0 : ℝ), (0 : ℝ)).1 = 0 by rw [toRad]; norm_num, abs_zero]
      rw [earthRadiusM]
      have h3 := Real.pi_gt_three
      norm_num
      linarith)
    (by
      rw [ST_Project_north_00]
      show (-40 : ℝ) ≤ 10000 / earthRadiusM * 180 / Real.pi
      have h := div_pos (mul_pos deltaR_pos (by norm_num : (0 : ℝ) < 180)) Real.pi_pos
      linarith)
    (by
      rw [ST_Project_north_00]
      show 10000 / earthRadiusM * 180 / Real.pi ≤ 40
      rw [earthRadiusM, div_le_iff₀ Real.pi_pos]
      nlinarith [Real.pi_gt_three])
    (by
      rw [ST_Project_north_00]
      show (-40 : ℝ) ≤ 0
      norm_num)
    (by
      rw [ST_Project_north_00]
      show (0 : ℝ) ≤ 40
      norm_num)

/-! ### Claim C1 -/

/-- C1 counterexample: a relative location may carry a pre-existing
out-of-bounds coordinate (latitude 50); when its re-resolution fails,
the run finishes with that location still holding latitude 50, outside
`[-40, 40]` — the bounds invariant does not hold unconditionally. -/
theorem bounds_invariant_counterexample :
    ((assign_coordinates_to_world (fun _ => none) (fun _ _ => 10000000)
        (fun c _ _ => c) (fun _ _ => 0)
        [⟨"A", none, none⟩, ⟨"B", some "x", some (50, 0)⟩]).locs[1]?).map
      Location.coordinates = some (some ((50 : ℝ), 0)) ∧
    ¬ inWorldBounds ((50 : ℝ), 0) := by
  constructor
  · have hrun := run_nonempty (fun _ => none) (fun _ _ => (10000000 : ℝ))
      (fun c _ _ => c) (fun _ _ => 0)
      [⟨"A", none, none⟩, ⟨"B", some "x", some (50, 0)⟩] (by simp)
    rw [identify_pair ⟨"A", none, none⟩ ⟨"B", some "x", some (50, 0)⟩ rfl (by decide),
      distribute_pair, resolve_pair] at hrun
    rw [show calculate_coordinates_from_parse ((fun _ : ℕ => (none : Option (ℝ × ℝ))) 1) =
      none from rfl] at hrun
    rw [resolve_conflicts_pair] at hrun
    rw [conflictStep_far _ _ _ _ _ (0, 1) ⟨"A", none, some ((0 : ℝ), 0)⟩
      ⟨"B", some "x", some ((50 : ℝ), 0)⟩ ((0 : ℝ), 0) ((50 : ℝ), 0) rfl rfl rfl rfl
      (by norm_num)] at hrun
    rw [hrun]
    rfl
  · rw [inWorldBounds]
    norm_num

/-- C1 amended: bounds invariant relative to the initial state.  If
every coordinate already present when the run starts lies within world
bounds (`-40 ≤ lat ≤ 40`, `-180 ≤ lon ≤ 180`), then after any run of
`assign_coordinates_to_world` — for every oracle, distance, projection
and random-bearing behaviour — every location that holds a coordinate
holds one within world bounds: anchor slots are clamped to
`[-40, 40]²`, relative candidates are bounds-checked before storing,
and conflict adjustments are clamped to `[-40, 40]²`. -/
theorem run_preserves_bounds (oracle : ℕ → Option (ℝ × ℝ)) (dist : ℝ × ℝ → ℝ × ℝ → ℝ)
    (proj : ℝ × ℝ → ℝ → ℝ → ℝ × ℝ) (bear : ℕ → ℕ → ℝ) (locs : List Location)
    (h : allInBounds locs) :
    allInBounds (assign_coordinates_to_world oracle dist proj bear locs).locs := by
  by_cases hne : locs = []
  · subst hne
    intro l hl c hc
    rw [show (assign_coordinates_to_world oracle dist proj bear []).locs = [] from rfl] at hl
    cases hl
  · rw [run_nonempty oracle dist proj bear locs hne]
    exact resolve_conflicts_allInBounds dist proj bear 5 _
      (resolve_allInBounds oracle _ _ (distribute_allInBounds _ _ h))

/-- Witness for C1 on a world whose single pre-existing coordinate is
in bounds. -/
theorem run_preserves_bounds_witness :
    allInBounds (assign_coordinates_to_world (fun _ => none) (fun _ _ => 0)
      (fun c _ _ => c) (fun _ _ => 0)
      [⟨"A", none, some (1, 2)⟩, ⟨"B", some "x", none⟩]).locs :=
  run_preserves_bounds (fun _ => none) (fun _ _ => 0) (fun c _ _ => c) (fun _ _ => 0)
    [⟨"A", none, some (1, 2)⟩, ⟨"B", some "x", none⟩]
    (by
      intro l hl c hc
      rcases List.mem_cons.mp hl with rfl | hl
      · cases hc
        exact ⟨⟨by norm_num, by norm_num⟩, ⟨by norm_num, by norm_num⟩⟩
      · rcases List.mem_cons.mp hl with rfl | hl
        · cases hc
        · cases hl)

/-! ### Claim C4 -/

/-- C4: the repository's own integration test
`test_coordinate_mapper_respects_existing_coordinates` creates a single
location `ExistingLocation` with no relative position and the
pre-existing coordinate `(lat 15, lon 35)` and asserts it is not
overwritten.  The code classifies it as an anchor (the classification
looks only at `relative_position`) and redistributes it to the origin
slot `(0, 0)`: the pre-existing coordinate is overwritten. -/
theorem existing_coordinate_overwritten :
    ((assign_coordinates_to_world (fun _ => none) (fun _ _ => 0) (fun c _ _ => c)
        (fun _ _ => 0) [⟨"ExistingLocation", none, some (15, 35)⟩]).locs[0]?).map
      Location.coordinates = some (some ((0 : ℝ), 0)) ∧
    ¬ ((assign_coordinates_to_world (fun _ => none) (fun _ _ => 0) (fun c _ _ => c)
        (fun _ _ => 0) [⟨"ExistingLocation", none, some (15, 35)⟩]).locs[0]?).map
      Location.coordinates = some (some ((15 : ℝ), 35)) := by
  have hrun := run_nonempty (fun _ => none) (fun _ _ => (0 : ℝ)) (fun c _ _ => c)
    (fun _ _ => 0) [⟨"ExistingLocation", none, some (15, 35)⟩] (by simp)
  rw [identify_single ⟨"ExistingLocation", none, some (15, 35)⟩ rfl, distribute_single,
    resolve_single, resolve_conflicts_single] at hrun
  rw [hrun]
  refine ⟨rfl, fun h => ?_⟩
  rw [show ((([⟨"ExistingLocation", none, some ((0 : ℝ), 0)⟩] :
      List Location)[0]?).map Location.coordinates) = some (some ((0 : ℝ), 0)) from rfl] at h
  have h2 : ((0 : ℝ), (0 : ℝ)) = ((15 : ℝ), (35 : ℝ)) := by
    injection h with h
    injection h
  have h3 : (0 : ℝ) = 15 := congrArg Prod.fst h2
  norm_num at h3

/-! ### Claim C9 -/

/-- C9: on a world with zero locations, `assign_coordinates_to_world`
returns the all-zero summary, performs no writes (the location list is
returned unchanged) and does not reach `db.commit()`
(`committed = false`), raising no error. -/
theorem empty_world_run (oracle : ℕ → Option (ℝ × ℝ)) (dist : ℝ × ℝ → ℝ × ℝ → ℝ)
    (proj : ℝ × ℝ → ℝ → ℝ → ℝ × ℝ) (bear : ℕ → ℕ → ℝ) :
    assign_coordinates_to_world oracle dist proj bear [] =
      { locs := [], committed := false, summary := ⟨0, 0, 0, 0⟩ } := rfl

/-! ### Claim C8 -/

/-- C8: determinism of anchor distribution.  Two runs of the
distributor over the same ordered anchor index set assign identical
coordinates to every anchor, whatever the prior per-location state of
either run: the slot point depends only on the anchor's position in the
anchor list and the anchor count. -/
theorem anchor_distribution_deterministic (aidx : List ℕ) (ls₁ ls₂ : List Location)
    (hlen : ls₁.length = ls₂.length) (i : ℕ) (hi : i ∈ aidx) (h1 : i < ls₁.length) :
    ((distribute_anchor_locations aidx ls₁)[i]?).map Location.coordinates =
    ((distribute_anchor_locations aidx ls₂)[i]?).map Location.coordinates := by
  rw [distribute_anchor_locations, distribute_anchor_locations,
    getElem?_updateEach, getElem?_updateEach]
  rw [List.getElem?_eq_getElem h1, List.getElem?_eq_getElem (hlen ▸ h1)]
  simp [hi]

/-- Witness for C8: two one-location worlds in different prior states
receive the same anchor coordinate. -/
theorem anchor_distribution_deterministic_witness :
    ((distribute_anchor_locations [0] [⟨"A", none, none⟩])[0]?).map Location.coordinates =
    ((distribute_anchor_locations [0] [⟨"B", none, some (3, 4)⟩])[0]?).map
      Location.coordinates :=
  anchor_distribution_deterministic [0] [⟨"A", none, none⟩] [⟨"B", none, some (3, 4)⟩]
    rfl 0 (by simp) (by simp)

/-! ### Claim C5 -/

/-- C5: in a non-empty world where every location carries a non-empty
positional constraint, the first location is forced to become the
anchor: the anchor set is exactly `[0]`, the whole run leaves it at the
origin `(0, 0)` for every oracle/distance/projection/random behaviour
(in particular it is not passed through relative resolution), and its
constraint text is retained. -/
theorem forced_anchor_run (oracle : ℕ → Option (ℝ × ℝ)) (dist : ℝ × ℝ → ℝ × ℝ → ℝ)
    (proj : ℝ × ℝ → ℝ → ℝ → ℝ × ℝ) (bear : ℕ → ℕ → ℝ) (locs : List Location)
    (hne : locs ≠ []) (hall : ∀ loc ∈ locs, isAnchor loc = false) :
    identify_anchor_locations locs = [0] ∧
    ((assign_coordinates_to_world oracle dist proj bear locs).locs[0]?).map
      Location.coordinates = some (some ((0 : ℝ), (0 : ℝ))) ∧
    ((assign_coordinates_to_world oracle dist proj bear locs).locs[0]?).map
      Location.relative_position = (locs[0]?).map Location.relative_position := by
  have haidx := identify_forced locs hall
  have hemp : locs.isEmpty = false := by
    cases locs with
    | nil => exact absurd rfl hne
    | cons l ls => rfl
  have hrun : (assign_coordinates_to_world oracle dist proj bear locs).locs =
      resolve_conflicts dist proj bear 5
        (resolve_relative_positions oracle [0]
          (distribute_anchor_locations [0] locs)) := by
    rw [assign_coordinates_to_world, hemp]
    simp only [Bool.false_eq_true, if_false, haidx]
  have h0 : 0 < locs.length := List.length_pos.mpr hne
  refine ⟨haidx, ?_, ?_⟩
  · rw [hrun, resolve_conflicts_getElem?_zero, resolve_relative_positions,
      getElem?_updateEach, distribute_anchor_locations, getElem?_updateEach,
      List.getElem?_eq_getElem h0]
    simp
    rfl
  · rw [hrun, resolve_conflicts_getElem?_zero, resolve_relative_positions,
      getElem?_updateEach, distribute_anchor_locations, getElem?_updateEach,
      List.getElem?_eq_getElem h0]
    simp

/-! ### Claim C2 -/

/-- C2 counterexample: with the spatial planner proposing latitude 50
(outside `[-40, 40]`) for the single relative location of a
two-location world, the run stores nothing for that location — the
out-of-bounds candidate is rejected, not stored at the nearest
in-bounds coordinate `(40, 0)` as hard clipping would do. -/
theorem hard_clip_counterexample :
    ((assign_coordinates_to_world (fun _ => some (50, 0)) (fun _ _ => 10000000)
        (fun c _ _ => c) (fun _ _ => 0)
        [⟨"A", none, none⟩, ⟨"B", some "x", none⟩]).locs[1]?).map Location.coordinates =
      some none ∧
    ¬ ((assign_coordinates_to_world (fun _ => some (50, 0)) (fun _ _ => 10000000)
        (fun c _ _ => c) (fun _ _ => 0)
        [⟨"A", none, none⟩, ⟨"B", some "x", none⟩]).locs[1]?).map Location.coordinates =
      some (some ((40 : ℝ), 0)) := by
  have hrun := run_nonempty (fun _ => some ((50 : ℝ), 0)) (fun _ _ => 10000000)
    (fun c _ _ => c) (fun _ _ => 0) [⟨"A", none, none⟩, ⟨"B", some "x", none⟩] (by simp)
  rw [identify_pair ⟨"A", none, none⟩ ⟨"B", some "x", none⟩ rfl (by decide),
    distribute_pair, resolve_pair] at hrun
  rw [show calculate_coordinates_from_parse ((fun _ : ℕ => some ((50 : ℝ), 0)) 1) = none from
    calc_parse_out 50 0 (by norm_num)] at hrun
  rw [resolve_conflicts_pair] at hrun
  rw [conflictStep_snd_none _ _ _ _ _ (0, 1) ⟨"B", some "x", none⟩ rfl rfl] at hrun
  rw [hrun]
  refine ⟨rfl, fun h => ?_⟩
  rw [show ((([⟨"A", none, some ((0 : ℝ), 0)⟩, ⟨"B", some "x", none⟩] :
      List Location)[1]?).map Location.coordinates) = some none from rfl] at h
  cases h

/-- C2 amended: before storing, the candidate obtained for a relative
location is validated against world bounds, not clamped: an in-bounds
candidate is stored exactly as proposed, and an out-of-bounds candidate
raises a `ValueError` that the resolver catches, leaving that
location's row unchanged. -/
theorem relative_candidate_validation (oracle : ℕ → Option (ℝ × ℝ)) (aidx : List ℕ)
    (locs : List Location) (i : ℕ) (lat lon : ℝ) (hi : i ∉ aidx)
    (hor : oracle i = some (lat, lon)) :
    (inWorldBounds (lat, lon) →
      (resolve_relative_positions oracle aidx locs)[i]? =
        (locs[i]?).map fun l => { l with coordinates := some (lat, lon) }) ∧
    (¬ inWorldBounds (lat, lon) →
      (resolve_relative_positions oracle aidx locs)[i]? = locs[i]?) := by
  constructor
  · intro hb
    refine resolve_getElem?_stored oracle aidx locs i (lat, lon) hi ?_
    rw [hor]
    exact calc_parse_in lat lon hb
  · intro hb
    refine resolve_getElem?_fail oracle aidx locs i hi ?_
    rw [hor]
    exact calc_parse_out lat lon hb

/-- Witness for C2 at an in-bounds proposal `(10, 20)`. -/
theorem relative_candidate_validation_witness :
    (inWorldBounds ((10 : ℝ), 20) →
      (resolve_relative_positions (fun _ => some (10, 20)) [0]
        [⟨"A", none, none⟩, ⟨"B", some "x", none⟩])[1]? =
        (([⟨"A", none, none⟩, ⟨"B", some "x", none⟩] : List Location)[1]?).map
          fun l => { l with coordinates := some ((10 : ℝ), 20) }) ∧
    (¬ inWorldBounds ((10 : ℝ), 20) →
      (resolve_relative_positions (fun _ => some (10, 20)) [0]
        [⟨"A", none, none⟩, ⟨"B", some "x", none⟩])[1]? =
        ([⟨"A", none, none⟩, ⟨"B", some "x", none⟩] : List Location)[1]?) :=
  relative_candidate_validation (fun _ => some (10, 20)) [0]
    [⟨"A", none, none⟩, ⟨"B", some "x", none⟩] 1 10 20 (by decide) rfl

/-! ### Claim C3 -/

/-- C3 counterexample: a relative location whose resolution fails
(here: the agent call raises) is left with NO coordinate — it is not
anchored at the world origin `(0, 0)`.  The run itself still completes,
committing, with the summary `⟨2, 1, 1, 1⟩`. -/
theorem origin_fallback_counterexample :
    ((assign_coordinates_to_world (fun _ => none) (fun _ _ => 10000000)
        (fun c _ _ => c) (fun _ _ => 0)
        [⟨"A", none, none⟩, ⟨"B", some "x", none⟩]).locs[1]?).map Location.coordinates =
      some none ∧
    ¬ ((assign_coordinates_to_world (fun _ => none) (fun _ _ => 10000000)
        (fun c _ _ => c) (fun _ _ => 0)
        [⟨"A", none, none⟩, ⟨"B", some "x", none⟩]).locs[1]?).map Location.coordinates =
      some (some ((0 : ℝ), 0)) ∧
    (assign_coordinates_to_world (fun _ => none) (fun _ _ => 10000000)
        (fun c _ _ => c) (fun _ _ => 0)
        [⟨"A", none, none⟩, ⟨"B", some "x", none⟩]).summary = ⟨2, 1, 1, 1⟩ := by
  have hrun := run_nonempty (fun _ => none) (fun _ _ => (10000000 : ℝ))
    (fun c _ _ => c) (fun _ _ => 0) [⟨"A", none, none⟩, ⟨"B", some "x", none⟩] (by simp)
  rw [identify_pair ⟨"A", none, none⟩ ⟨"B", some "x", none⟩ rfl (by decide),
    distribute_pair, resolve_pair] at hrun
  rw [show calculate_coordinates_from_parse ((fun _ : ℕ => (none : Option (ℝ × ℝ))) 1) =
    none from rfl] at hrun
  rw [resolve_conflicts_pair] at hrun
  rw [conflictStep_snd_none _ _ _ _ _ (0, 1) ⟨"B", some "x", none⟩ rfl rfl] at hrun
  rw [hrun]
  refine ⟨rfl, fun h => ?_, rfl⟩
  rw [show ((([⟨"A", none, some ((0 : ℝ), 0)⟩, ⟨"B", some "x", none⟩] :
      List Location)[1]?).map Location.coordinates) = some none from rfl] at h
  cases h

/-- C3 amended: a relative location whose resolution fails (reference
not found, agent error, unparsable or out-of-bounds response) is left
without a coordinate — there is no origin fallback — and the failure is
isolated: the run still completes, committing, with a summary covering
all locations. -/
theorem failed_resolution_isolated (oracle : ℕ → Option (ℝ × ℝ))
    (dist : ℝ × ℝ → ℝ × ℝ → ℝ) (proj : ℝ × ℝ → ℝ → ℝ → ℝ × ℝ) (bear : ℕ → ℕ → ℝ)
    (locs : List Location) (i : ℕ) (l : Location) (hne : locs ≠ [])
    (hi : i ∉ identify_anchor_locations locs)
    (hor : calculate_coordinates_from_parse (oracle i) = none)
    (hil : locs[i]? = some l) (hcoord : l.coordinates = none) :
    (assign_coordinates_to_world oracle dist proj bear locs).locs[i]? = some l ∧
    (assign_coordinates_to_world oracle dist proj bear locs).committed = true ∧
    (assign_coordinates_to_world oracle dist proj bear locs).summary.total_locations =
      locs.length := by
  rw [run_nonempty oracle dist proj bear locs hne]
  refine ⟨?_, rfl, rfl⟩
  have h1 : (distribute_anchor_locations (identify_anchor_locations locs) locs)[i]? =
      some l := by
    rw [distribute_getElem?_not_mem _ _ _ hi]
    exact hil
  have h2 : (resolve_relative_positions oracle (identify_anchor_locations locs)
      (distribute_anchor_locations (identify_anchor_locations locs) locs))[i]? = some l := by
    rw [resolve_getElem?_fail _ _ _ _ hi hor]
    exact h1
  rw [resolve_conflicts]
  exact foldl_conflictStep_preserves_none dist proj bear 5 _ _ i l h2 hcoord

/-- Witness for C3: the failed location keeps its empty coordinate and
the run commits. -/
theorem failed_resolution_isolated_witness :
    (assign_coordinates_to_world (fun _ => none) (fun _ _ => 0) (fun c _ _ => c)
      (fun _ _ => 0) [⟨"A", none, none⟩, ⟨"B", some "x", none⟩]).locs[1]? =
      some ⟨"B", some "x", none⟩ ∧
    (assign_coordinates_to_world (fun _ => none) (fun _ _ => 0) (fun c _ _ => c)
      (fun _ _ => 0) [⟨"A", none, none⟩, ⟨"B", some "x", none⟩]).committed = true ∧
    (assign_coordinates_to_world (fun _ => none) (fun _ _ => 0) (fun c _ _ => c)
      (fun _ _ => 0)
      [⟨"A", none, none⟩, ⟨"B", some "x", none⟩]).summary.total_locations =
      ([⟨"A", none, none⟩, ⟨"B", some "x", none⟩] : List Location).length :=
  failed_resolution_isolated (fun _ => none) (fun _ _ => 0) (fun c _ _ => c) (fun _ _ => 0)
    [⟨"A", none, none⟩, ⟨"B", some "x", none⟩] 1 ⟨"B", some "x", none⟩ (by simp)
    (by decide) rfl rfl rfl

/-- Witness for C5: a one-location world whose only location carries
the constraint text `north of B`. -/
theorem forced_anchor_run_witness :
    identify_anchor_locations [⟨"A", some "north of B", none⟩] = [0] ∧
    ((assign_coordinates_to_world (fun _ => none) (fun _ _ => 0) (fun c _ _ => c)
        (fun _ _ => 0) [⟨"A", some "north of B", none⟩]).locs[0]?).map
      Location.coordinates = some (some ((0 : ℝ), (0 : ℝ))) ∧
    ((assign_coordinates_to_world (fun _ => none) (fun _ _ => 0) (fun c _ _ => c)
        (fun _ _ => 0) [⟨"A", some "north of B", none⟩]).locs[0]?).map
      Location.relative_position =
      ([(⟨"A", some "north of B", none⟩ : Location)][0]?).map Location.relative_position :=
  forced_anchor_run (fun _ => none) (fun _ _ => 0) (fun c _ _ => c) (fun _ _ => 0)
    [⟨"A", some "north of B", none⟩] (by simp)
    (by
      intro loc hloc
      rw [List.mem_singleton] at hloc
      subst hloc
      decide)

end LlmAdventure
